import Mathlib

/-!
Verification development for the lottery ETL pipeline
(`src/commons/data_cleaning.py`, `src/commons/feature_engineering.py`,
`src/commons/transform_to_sqlite.py`).

The pandas pipeline is shallowly embedded:
a cell is a `Value` (the dynamic Python/pandas value, with `null`
standing for both Python `None` and pandas `NaN`/`NaT`/`<NA>`),
a row is an association list from column name to `Value`,
a `DataFrame` is a list of rows, and code that can raise returns
`Except String`.  Inside the cleaning stage the pandas index matters —
`drop_duplicates` keeps the surviving rows' labels and
`validar_dezenas` reads `df.loc[0, "dezenas"]` by label — so there the
rows are threaded as an `LFrame`, a list of (label, row) pairs: the
incoming batch carries the fresh `RangeIndex` 0..n-1 (both producers
of its input, the partitioner and the cleaning stage itself, end with
`reset_index(drop=True)`), and `df.loc[0]` is a lookup of label 0 that
raises `KeyError` when deduplication removed that label.
-/

set_option maxHeartbeats 1000000
set_option maxRecDepth 4000
set_option synthInstance.maxHeartbeats 1000000

/-- Calendar date carried by a pandas `Timestamp` (the feed holds
day-precision dates only). -/
structure Date where
  year : Int
  month : Nat
  day : Nat
deriving DecidableEq, Repr

/-- Gregorian leap year. -/
def isLeap (y : Int) : Bool :=
  y % 4 == 0 && (y % 100 != 0 || y % 400 == 0)

/-- Number of days of month `m` in year `y`. -/
def daysInMonth (y : Int) (m : Nat) : Nat :=
  if m = 2 then (if isLeap y then 29 else 28)
  else if m = 4 ∨ m = 6 ∨ m = 9 ∨ m = 11 then 30 else 31

/-- Calendar validity check used by date parsing. -/
def validDate (y : Int) (m d : Nat) : Bool :=
  1 ≤ m && m ≤ 12 && 1 ≤ d && d ≤ daysInMonth y m

/-- Ordinal of the date inside its year, January 1st being 1. -/
def dayOfYear (dt : Date) : Nat :=
  (List.range (dt.month - 1)).foldl (fun acc i => acc + daysInMonth dt.year (i + 1)) 0 + dt.day

/-- Month offsets for Sakamoto's day-of-week method. -/
def sakamotoTable : List Nat := [0, 3, 2, 5, 0, 3, 5, 1, 4, 6, 2, 4]

/-- Day of the week, Sunday = 0 (Sakamoto's method). -/
def dowSunday0 (dt : Date) : Int :=
  let y : Int := if dt.month < 3 then dt.year - 1 else dt.year
  let t : Int := (sakamotoTable.getD (dt.month - 1) 0 : Nat)
  (y + y.fdiv 4 - y.fdiv 100 + y.fdiv 400 + t + (dt.day : Int)) % 7

/-- pandas `Series.dt.weekday`: Monday = 0. -/
def weekdayMon0 (dt : Date) : Nat :=
  ((dowSunday0 dt + 6) % 7).toNat

/-- Number of ISO weeks of ISO year `y` (53 when Jan 1 falls on a
Thursday, or on a Wednesday of a leap year). -/
def weeksInIsoYear (y : Int) : Nat :=
  let j := weekdayMon0 ⟨y, 1, 1⟩
  if j = 3 ∨ (isLeap y ∧ j = 2) then 53 else 52

/-- pandas `Series.dt.isocalendar().week`. -/
def isoWeek (dt : Date) : Nat :=
  let dow : Int := (weekdayMon0 dt : Int) + 1
  let w : Int := ((dayOfYear dt : Int) - dow + 10).fdiv 7
  if w < 1 then weeksInIsoYear (dt.year - 1)
  else if w > (weeksInIsoYear dt.year : Int) then 1
  else w.toNat

/-- Python float, modelled as an exact rational kept in lowest terms
(the feed carries decimal literals; IEEE rounding is not modelled).
`n` is the numerator, `d` the positive denominator. -/
structure PyFloat where
  n : Int
  d : Nat
deriving DecidableEq, Repr

/-- Canonical fraction constructor (lowest terms, positive
denominator; a zero denominator is never produced by callers). -/
def pfMk (n : Int) (d : Nat) : PyFloat :=
  if d = 0 then ⟨0, 1⟩
  else
    let g := Nat.gcd n.natAbs d
    ⟨n / (g : Int), d / g⟩

/-- Float of an integer. -/
def pfOfInt (n : Int) : PyFloat := ⟨n, 1⟩

/-- Float zero. -/
def pfZero : PyFloat := ⟨0, 1⟩

/-- Float addition. -/
def pfAdd (a b : PyFloat) : PyFloat :=
  pfMk (a.n * b.d + b.n * a.d) (a.d * b.d)

/-- Float subtraction. -/
def pfSub (a b : PyFloat) : PyFloat :=
  pfMk (a.n * b.d - b.n * a.d) (a.d * b.d)

/-- Float division; every call site guards the zero denominator (the
`b.n = 0` branch is unreachable there). -/
def pfDiv (a b : PyFloat) : PyFloat :=
  if b.n = 0 then pfZero
  else pfMk (a.n * b.d * (if b.n < 0 then -1 else 1)) (a.d * b.n.natAbs)

/-- Whitespace for Python-style `strip`. -/
def isWS (c : Char) : Bool :=
  c = ' ' ∨ c = '\t' ∨ c = '\n' ∨ c = '\r'

/-- Strip leading and trailing whitespace (character-level; core
`String.trim` does not reduce in the kernel). -/
def trimChars (cs : List Char) : List Char :=
  ((cs.dropWhile isWS).reverse.dropWhile isWS).reverse

/-- Split a character list on a separator character (Python
`str.split(sep)` semantics: `n+1` groups for `n` separators). -/
def splitChar (sep : Char) : List Char → List (List Char)
  | [] => [[]]
  | c :: rest =>
    match splitChar sep rest with
    | [] => [[c]]
    | g :: gs => if c = sep then [] :: g :: gs else (c :: g) :: gs

/-- Python `str.lower()`. -/
def pyLower (s : String) : String :=
  String.mk (s.data.map Char.toLower)

/-- Digits-only character list to `Nat`. -/
def digitsToNat? (cs : List Char) : Option Nat :=
  if cs ≠ [] ∧ cs.all Char.isDigit then
    some (cs.foldl (fun a c => a * 10 + (c.toNat - 48)) 0)
  else none

/-- Numeric value of a digit list (0 for the empty list). -/
def natValChars (cs : List Char) : Nat :=
  cs.foldl (fun a c => a * 10 + (c.toNat - 48)) 0

mutual
/-- Dynamic cell value of the embedded pandas pipeline.  `null` stands
for Python `None` and for the pandas missing values `NaN`/`NaT`/`<NA>`;
`num` is a float (modelled as the exact rational `PyFloat`), `int` an
integer (plain or nullable `Int64`).  Python lists and dicts are
carried by the mutually inductive `VList`/`KVList` (a nested
`List Value` would not give a kernel-computable decidable equality). -/
inductive Value where
  | null
  | bool (b : Bool)
  | int (n : Int)
  | num (q : PyFloat)
  | str (s : String)
  | date (d : Date)
  | list (xs : VList)
  | dict (kvs : KVList)
deriving DecidableEq
inductive VList where
  | nil
  | cons (v : Value) (tl : VList)
deriving DecidableEq
inductive KVList where
  | nil
  | cons (k : String) (v : Value) (tl : KVList)
deriving DecidableEq
end

/-- View of a `VList` as a `List`. -/
def VList.toList : VList → List Value
  | VList.nil => []
  | VList.cons v tl => v :: tl.toList

/-- Build a `VList` from a `List`. -/
def VList.ofList : List Value → VList
  | [] => VList.nil
  | v :: tl => VList.cons v (VList.ofList tl)

/-- View of a `KVList` as a `List` of pairs. -/
def KVList.toPairs : KVList → List (String × Value)
  | KVList.nil => []
  | KVList.cons k v tl => (k, v) :: tl.toPairs

/-- Build a `KVList` from a `List` of pairs. -/
def KVList.ofPairs : List (String × Value) → KVList
  | [] => KVList.nil
  | (k, v) :: tl => KVList.cons k v (KVList.ofPairs tl)

/-- Python list literal. -/
def vlist (xs : List Value) : Value := Value.list (VList.ofList xs)

/-- Python dict literal. -/
def vdict (kvs : List (String × Value)) : Value := Value.dict (KVList.ofPairs kvs)

@[simp] theorem VList.toList_ofList (l : List Value) : (VList.ofList l).toList = l := by
  induction l with
  | nil => rfl
  | cons v tl ih => simp [VList.ofList, VList.toList, ih]

@[simp] theorem KVList.toPairs_ofPairs (l : List (String × Value)) :
    (KVList.ofPairs l).toPairs = l := by
  induction l with
  | nil => rfl
  | cons kv tl ih => cases kv; simp [KVList.ofPairs, KVList.toPairs, ih]

/-- Decidable equality for `Except`, so concrete pipeline runs can be
settled by `decide`. -/
instance {ε α : Type} [DecidableEq ε] [DecidableEq α] : DecidableEq (Except ε α) := fun x y =>
  match x, y with
  | Except.ok a, Except.ok b =>
    if h : a = b then isTrue (by rw [h]) else isFalse (by intro he; injection he; contradiction)
  | Except.error a, Except.error b =>
    if h : a = b then isTrue (by rw [h]) else isFalse (by intro he; injection he; contradiction)
  | Except.ok _, Except.error _ => isFalse (by intro he; exact Except.noConfusion he)
  | Except.error _, Except.ok _ => isFalse (by intro he; exact Except.noConfusion he)

/-- A row: association list from column name to cell value. -/
abbrev Row := List (String × Value)

/-- A batch (pandas `DataFrame`): list of rows. -/
abbrev DataFrame := List Row

/-- Value of column `k` in a row (first matching key). -/
def rlookup (k : String) : Row → Option Value
  | [] => none
  | (k2, v) :: r => if k2 = k then some v else rlookup k r

/-- Column assignment on one row: replace the first occurrence of `k`,
or append the column when absent (pandas `df[k] = ...`). -/
def rset (k : String) (v : Value) : Row → Row
  | [] => [(k, v)]
  | (k2, v2) :: r => if k2 = k then (k2, v) :: r else (k2, v2) :: rset k v r

/-- Update the value at key `k` (first occurrence) when present; rows
without the column are left unchanged. -/
def rmapVal (k : String) (f : Value → Value) : Row → Row
  | [] => []
  | (k2, v2) :: r => if k2 = k then (k2, f v2) :: r else (k2, v2) :: rmapVal k f r

/-- Fallible version of `rmapVal`. -/
def rmapValE (k : String) (f : Value → Except String Value) : Row → Except String Row
  | [] => Except.ok []
  | (k2, v2) :: r =>
    if k2 = k then
      match f v2 with
      | Except.ok v3 => Except.ok ((k2, v3) :: r)
      | Except.error e => Except.error e
    else
      match rmapValE k f r with
      | Except.ok r2 => Except.ok ((k2, v2) :: r2)
      | Except.error e => Except.error e

/-- Drop every column whose name is listed in `cd` (pandas
`df.drop(columns=...)`; the source pre-filters to the columns actually
present, which key filtering subsumes). -/
def rdropKeys (cd : List String) (r : Row) : Row :=
  r.filter (fun kv => decide (kv.1 ∉ cd))

/-- Column names of a row. -/
def rkeys (r : Row) : List String := r.map Prod.fst

/-- Whether the batch has column `c` (keyed on the first row; pandas
columns are uniform across rows). -/
def hasCol (df : DataFrame) (c : String) : Bool :=
  match df with
  | [] => false
  | r :: _ => (rlookup c r).isSome

/-- Read a whole column, raising `KeyError` when a row lacks it
(pandas `df[c]` on a missing column). -/
def getColE (c : String) (df : DataFrame) : Except String (List Value) :=
  df.mapM (fun r =>
    match rlookup c r with
    | some v => Except.ok v
    | none => Except.error ("KeyError: " ++ c))

/-- `df[c].iloc[0]`: the column value of the first row; raises
`IndexError` on an empty batch and `KeyError` on a missing column. -/
def ilocFirst (df : DataFrame) (c : String) : Except String Value :=
  match df with
  | [] => Except.error "IndexError: single positional indexer is out-of-bounds"
  | r :: _ =>
    match rlookup c r with
    | some v => Except.ok v
    | none => Except.error ("KeyError: " ++ c)

/-- `df[c] = df[c].apply(f)` for a total `f`. -/
def mapColPure (c : String) (f : Value → Value) (df : DataFrame) : DataFrame :=
  df.map (rmapVal c f)

/-- `df[c] = f(df[c])` for an `f` that can raise; `KeyError` when the
column is absent. -/
def mapColE (c : String) (f : Value → Except String Value) (df : DataFrame) :
    Except String DataFrame :=
  if hasCol df c then df.mapM (rmapValE c f) else Except.error ("KeyError: " ++ c)

/-- Python `int(str)` on a character list: optional surrounding
whitespace and sign, digits only (a fractional literal raises, hence
`none`). -/
def parseIntChars (cs : List Char) : Option Int :=
  match trimChars cs with
  | '-' :: rest => (digitsToNat? rest).map (fun n => -(n : Int))
  | '+' :: rest => (digitsToNat? rest).map (fun n => (n : Int))
  | rest => (digitsToNat? rest).map (fun n => (n : Int))

/-- Python `int(str)`. -/
def parseIntStr (s : String) : Option Int := parseIntChars s.data

/-- Decimal-literal fragment of Python `float(str)` / pandas numeric
parsing: sign, integer part, optional fractional part (exponents and
the `inf`/`nan` words are treated as parse failures, which the feed
does not use). -/
def parseNumber (s : String) : Option PyFloat :=
  let t := trimChars s.data
  let sgn : Int := if t.head? = some '-' then -1 else 1
  let u := match t with
    | '-' :: rest => rest
    | '+' :: rest => rest
    | rest => rest
  match splitChar '.' u with
  | [a] =>
    if a ≠ [] ∧ a.all Char.isDigit then some (pfMk (sgn * (natValChars a : Int)) 1) else none
  | [a, b] =>
    if (a ≠ [] ∨ b ≠ []) ∧ a.all Char.isDigit ∧ b.all Char.isDigit then
      some (pfMk (sgn * ((natValChars a * 10 ^ b.length + natValChars b : Nat) : Int)) (10 ^ b.length))
    else none
  | _ => none

/-- Construct a date after calendar validation. -/
def mkDate? (y : Int) (m d : Nat) : Option Date :=
  if validDate y m d then some ⟨y, m, d⟩ else none

/-- Day-first date parsing as performed by
`pd.to_datetime(..., dayfirst=True, format="mixed")` on this feed:
`d/m/Y` or ISO `Y-m-d`, with calendar validation. -/
def parseDateBR (s : String) : Option Date :=
  let t := trimChars s.data
  match splitChar '/' t with
  | [d, m, y] =>
    match digitsToNat? d, digitsToNat? m, digitsToNat? y with
    | some dd, some mm, some yy => mkDate? (yy : Int) mm dd
    | _, _, _ => none
  | _ =>
    match splitChar '-' t with
    | [y, m, d] =>
      match digitsToNat? y, digitsToNat? m, digitsToNat? d with
      | some yy, some mm, some dd => mkDate? (yy : Int) mm dd
      | _, _, _ => none
    | _ => none

/-- `ast.literal_eval` restricted to the literal fragment this feed
exercises: integer-list literals such as `"[1, 2, 3]"`.  Everything
else is a parse failure (`none`). -/
def literalEvalV (s : String) : Option Value :=
  let t := trimChars s.data
  if t.head? = some '[' ∧ t.getLast? = some ']' then
    let inner := trimChars ((t.drop 1).dropLast)
    if inner = [] then some (vlist [])
    else
      ((splitChar ',' inner).mapM (fun p => (parseIntChars p).map Value.int)).map vlist
  else none

/-- Python `str(...)` as applied to the scalar values the pipeline
stringifies (lottery identifiers are strings in the feed; the other
arms are approximate renderings never reached on it). -/
def pyStr : Value → String
  | Value.null => "nan"
  | Value.bool b => if b then "True" else "False"
  | Value.int n => toString n
  | Value.num q => toString q.n ++ "/" ++ toString q.d
  | Value.str s => s
  | Value.date d => toString d.year ++ "-" ++ toString d.month ++ "-" ++ toString d.day
  | Value.list _ => "[...]"
  | Value.dict _ => "dict"

/-- Python `int(x)`: exact for ints and bools, truncation toward zero
for floats, digit strings for `str`; anything else raises (`none`). -/
def pyInt : Value → Option Int
  | Value.int n => some n
  | Value.num q => some (Int.tdiv q.n (q.d : Int))
  | Value.bool b => some (if b then 1 else 0)
  | Value.str s => parseIntStr s
  | _ => none

/-- `data_cleaning.drop_colunas_por_loteria`: the per-lottery drop
table. -/
def dropSetFor (loteria : String) : List String :=
  if loteria = "megasena" ∨ loteria = "lotofacil" then ["timeCoracao", "mesSorte", "trevos"]
  else if loteria = "maismilionaria" then ["timeCoracao", "mesSorte"]
  else if loteria = "timemania" then ["mesSorte", "trevos"]
  else if loteria = "diadesorte" then ["timeCoracao", "trevos"]
  else []

/-- `data_cleaning.drop_colunas_por_loteria`: reads the first row's
`loteria`, lower-cases it, and drops the mapped columns (only those
present — key filtering). -/
def drop_colunas_por_loteria (df : DataFrame) : Except String DataFrame := do
  let v ← ilocFirst df "loteria"
  let cd := dropSetFor (pyLower (pyStr v))
  Except.ok (df.map (rdropKeys cd))

/-- Deduplication key: the row's `concurso` value, with missing
modelled as `null` (pandas `duplicated` treats missing values as equal
to each other). -/
def concursoKey (r : Row) : Value :=
  (rlookup "concurso" r).getD Value.null

/-- Whether some key occurs twice in the list. -/
def anyDupKey : List Value → Bool
  | [] => false
  | k :: ks => ks.any (fun x => decide (x = k)) || anyDupKey ks

/-- A frame together with its pandas index: each row paired with its
label.  Row-dropping operations (`drop_duplicates`, boolean masks)
keep the survivors' labels; label-based access (`df.loc`) looks them
up. -/
abbrev LFrame := List (Nat × Row)

/-- Forget the index (`reset_index(drop=True)` re-labels 0..n-1, which
is exactly what attaching `withIndex` to the plain rows restores). -/
def lrows (L : LFrame) : DataFrame := L.map Prod.snd

/-- Attach consecutive labels starting at `i`. -/
def indexFrom (i : Nat) : DataFrame → LFrame
  | [] => []
  | r :: rs => (i, r) :: indexFrom (i + 1) rs

/-- The fresh `RangeIndex` 0..n-1 every batch entering the cleaning
stage carries (its producers end with `reset_index(drop=True)`). -/
def withIndex (df : DataFrame) : LFrame := indexFrom 0 df

/-- `df.loc[0]`: the row labelled 0, wherever it sits — a `KeyError`
when no row carries that label any more. -/
def loc0 : LFrame → Except String Row
  | [] => Except.error "KeyError: 0"
  | p :: ps => if p.1 = 0 then Except.ok p.2 else loc0 ps

/-- `df[c] = df[c].apply(f)` on a labelled frame (column assignment
never touches the index). -/
def mapColPureL (c : String) (f : Value → Value) (L : LFrame) : LFrame :=
  L.map (fun p => (p.1, rmapVal c f p.2))

/-- `df[c] = f(df[c])` on a labelled frame for an `f` that can raise;
`KeyError` when the column is absent. -/
def mapColEL (c : String) (f : Value → Except String Value) (L : LFrame) :
    Except String LFrame :=
  if hasCol (lrows L) c then
    L.mapM (fun p => (rmapValE c f p.2).map (fun r => (p.1, r)))
  else Except.error ("KeyError: " ++ c)

/-- `df.drop_duplicates(subset=["concurso"], keep="last")`: keep a row
only when no later row carries the same `concurso` key; the surviving
rows keep their index labels. -/
def dropDupKeepLast : LFrame → LFrame
  | [] => []
  | p :: ps =>
    if ps.any (fun p2 => decide (concursoKey p2.2 = concursoKey p.2)) then dropDupKeepLast ps
    else p :: dropDupKeepLast ps

/-- `pd.to_numeric(..., errors="coerce")` on one cell: numbers pass
through, booleans become 0/1, numeric strings parse, everything else
coerces to missing. -/
def to_numeric_coerce : Value → Value
  | Value.int n => Value.int n
  | Value.num q => Value.num q
  | Value.bool b => Value.int (if b then 1 else 0)
  | Value.str s =>
    match parseNumber s with
    | some q => Value.num q
    | none => Value.null
  | _ => Value.null

/-- `.astype("Int64")` on one cell: missing stays missing, integral
numerics cast, a non-integral float raises. -/
def toInt64E : Value → Except String Value
  | Value.null => Except.ok Value.null
  | Value.int n => Except.ok (Value.int n)
  | Value.num q =>
    if q.d = 1 then Except.ok (Value.int q.n)
    else Except.error "TypeError: cannot safely cast non-equivalent float64 to int64"
  | _ => Except.error "TypeError: cannot astype to Int64"

/-- One cell of `pd.to_datetime(..., dayfirst=True, format="mixed")`:
missing stays `NaT`, datetimes pass through, strings must parse — the
call carries no `errors="coerce"`, so an unparseable string raises. -/
def to_datetime_mixed : Value → Except String Value
  | Value.null => Except.ok Value.null
  | Value.date d => Except.ok (Value.date d)
  | Value.str s =>
    match parseDateBR s with
    | some d => Except.ok (Value.date d)
    | none => Except.error ("ValueError: could not parse date " ++ s)
  | _ => Except.error "ValueError: unsupported type for to_datetime"

/-- `.astype("boolean")` on one cell: tri-state boolean; 0/1 numerics
cast, anything else non-missing raises. -/
def astype_boolean : Value → Except String Value
  | Value.null => Except.ok Value.null
  | Value.bool b => Except.ok (Value.bool b)
  | Value.int n =>
    if n = 0 then Except.ok (Value.bool false)
    else if n = 1 then Except.ok (Value.bool true)
    else Except.error "TypeError: cannot convert to boolean"
  | Value.num q =>
    if q.n = 0 then Except.ok (Value.bool false)
    else if q.n = (q.d : Int) then Except.ok (Value.bool true)
    else Except.error "TypeError: cannot convert to boolean"
  | _ => Except.error "TypeError: cannot convert to boolean"

/-- The five monetary columns of `tratar_tipos_e_colunas`. -/
def cols_monetarias : List String :=
  ["valorArrecadado", "valorAcumuladoConcurso_0_5", "valorAcumuladoConcursoEspecial",
   "valorAcumuladoProximoConcurso", "valorEstimadoProximoConcurso"]

/-- `data_cleaning.tratar_tipos_e_colunas`: dedup by `concurso`
(keep last, labels preserved), coerce `concurso` to nullable Int64,
parse the two date columns (raising on failure — no `errors="coerce"`
there), coerce the monetary columns that are present
(`errors="coerce"`), and cast `acumulou` to the tri-state boolean
dtype.  The column coercions never touch the index. -/
def tratar_tipos_e_colunas (L : LFrame) : Except String LFrame := do
  let _ ← getColE "concurso" (lrows L)
  let L := if anyDupKey ((lrows L).map concursoKey) then dropDupKeepLast L else L
  let L ← mapColEL "concurso" (fun v => toInt64E (to_numeric_coerce v)) L
  let L ← mapColEL "data" to_datetime_mixed L
  let L ← mapColEL "proximoConcurso" to_datetime_mixed L
  let L := cols_monetarias.foldl
    (fun d c => if hasCol (lrows d) c then mapColPureL c to_numeric_coerce d else d) L
  let L ← if hasCol (lrows L) "acumulou" then mapColEL "acumulou" astype_boolean L
    else Except.ok L
  Except.ok L

/-- `data_cleaning.normalizar_lista`: lists pass through, strings are
`literal_eval`ed with failures becoming `None`, anything else becomes
`None`. -/
def normalizar_lista : Value → Value
  | Value.list xs => Value.list xs
  | Value.str s => (literalEvalV s).getD Value.null
  | _ => Value.null

/-- The four structured columns normalized by
`aplicar_normalizacao_listas`. -/
def colunas_listas : List String :=
  ["dezenas", "dezenasOrdemSorteio", "premiacoes", "localGanhadores"]

/-- `data_cleaning.aplicar_normalizacao_listas` (column rewrites only
— the index is untouched). -/
def aplicar_normalizacao_listas (L : LFrame) : LFrame :=
  colunas_listas.foldl
    (fun d c => if hasCol (lrows d) c then mapColPureL c normalizar_lista d else d) L

/-- The lottery range table of `dezenas_validas` (closed intervals). -/
def intervalos : List (String × (Int × Int)) :=
  [("megasena", (1, 60)), ("lotofacil", (1, 25)), ("timemania", (1, 80)),
   ("diadesorte", (1, 31)), ("maismilionaria", (1, 50))]

/-- Range applicable to a row's `loteria` cell: only a string naming
one of the five known lotteries selects an interval (the source guards
with `loteria not in intervalos`). -/
def intervalFor : Value → Option (Int × Int)
  | Value.str s => intervalos.lookup s
  | _ => none

/-- `data_cleaning.dezenas_validas`: unknown lottery ⇒ `True`
(permissive fallback); otherwise the value must be a list whose every
element, coerced with `int(...)`, lies in the closed interval (a
coercion failure is caught and yields `False`). -/
def dezenas_validas (lista : Value) (loteria : Value) : Bool :=
  match intervalFor loteria with
  | none => true
  | some (lo, hi) =>
    match lista with
    | Value.list xs =>
      xs.toList.all (fun v =>
        match pyInt v with
        | some n => decide (lo ≤ n) && decide (n ≤ hi)
        | none => false)
    | _ => false

/-- The draw-size predicate of `validar_dezenas`:
`isinstance(x, list) and len(x) == expected_count`. -/
def lenPred (expected : Nat) (r : Row) : Bool :=
  match rlookup "dezenas" r with
  | some (Value.list xs) => decide (xs.toList.length = expected)
  | _ => false

/-- The range predicate of `validar_dezenas`, reading the row's
`loteria` (a missing column raises inside `df.apply`). -/
def rangePredE (r : Row) : Except String Bool :=
  match rlookup "loteria" r with
  | some lot => Except.ok (dezenas_validas ((rlookup "dezenas" r).getD Value.null) lot)
  | none => Except.error "KeyError: loteria"

/-- Filtering with a predicate that can raise (a pandas boolean mask
built by `df.apply`; on a labelled frame it keeps the survivors'
labels). -/
def filterME {α : Type} (p : α → Except String Bool) : List α → Except String (List α)
  | [] => Except.ok []
  | r :: rs =>
    match p r with
    | Except.error e => Except.error e
    | Except.ok b =>
      match filterME p rs with
      | Except.error e => Except.error e
      | Except.ok rest => Except.ok (if b then r :: rest else rest)

/-- Python `len(...)` on a cell: lists, strings and dicts have a
length; anything else (including missing) raises `TypeError`. -/
def pyLenE : Value → Except String Nat
  | Value.list xs => Except.ok xs.toList.length
  | Value.str s => Except.ok s.length
  | Value.dict kvs => Except.ok kvs.toPairs.length
  | _ => Except.error "TypeError: object has no len()"

/-- `data_cleaning.validar_dezenas`: `expected_count` from
`df.loc[0, "dezenas"]` — the row still labelled 0, a `KeyError` when
deduplication removed it — then drop rows of the wrong shape, then
rows failing the per-lottery range check (boolean masks keep the
survivors' labels), and finally `reset_index(drop=True)`. -/
def validar_dezenas (L : LFrame) : Except String DataFrame := do
  let r0 ← loc0 L
  let d0 ← match rlookup "dezenas" r0 with
    | some v => Except.ok v
    | none => Except.error "KeyError: dezenas"
  let expected ← pyLenE d0
  let L1 := L.filter (fun p => lenPred expected p.2)
  let L2 ← filterME (fun p => rangePredE p.2) L1
  Except.ok (lrows L2)

/-- `data_cleaning.data_cleaning_etapa1`: `df.copy()` (identity on the
value; aliasing is handled by the heap layer below) then the four
cleaning steps in order.  The incoming batch carries the fresh
`RangeIndex` 0..n-1 (its producers reset it); dropping columns leaves
the index untouched, so the labels are attached at the first
index-sensitive step. -/
def data_cleaning_etapa1 (df : DataFrame) : Except String DataFrame := do
  let df1 ← drop_colunas_por_loteria df
  let L2 ← tratar_tipos_e_colunas (withIndex df1)
  let L3 := aplicar_normalizacao_listas L2
  validar_dezenas L3

/-- One cell of `Series.dt.day`: `NaT` gives missing, a non-datetime
raises (the `.dt` accessor requires datetimelike content). -/
def dtDay : Value → Except String Value
  | Value.date d => Except.ok (Value.int d.day)
  | Value.null => Except.ok Value.null
  | _ => Except.error "AttributeError: Can only use .dt accessor with datetimelike values"

/-- One cell of `Series.dt.month`. -/
def dtMonth : Value → Except String Value
  | Value.date d => Except.ok (Value.int d.month)
  | Value.null => Except.ok Value.null
  | _ => Except.error "AttributeError: Can only use .dt accessor with datetimelike values"

/-- One cell of `Series.dt.year`. -/
def dtYear : Value → Except String Value
  | Value.date d => Except.ok (Value.int d.year)
  | Value.null => Except.ok Value.null
  | _ => Except.error "AttributeError: Can only use .dt accessor with datetimelike values"

/-- One cell of `Series.dt.isocalendar().week`. -/
def dtIsoWeek : Value → Except String Value
  | Value.date d => Except.ok (Value.int (isoWeek d))
  | Value.null => Except.ok Value.null
  | _ => Except.error "AttributeError: Can only use .dt accessor with datetimelike values"

/-- One cell of `Series.dt.weekday` (Monday = 0). -/
def dtWeekday : Value → Except String Value
  | Value.date d => Except.ok (Value.int (weekdayMon0 d))
  | Value.null => Except.ok Value.null
  | _ => Except.error "AttributeError: Can only use .dt accessor with datetimelike values"

/-- `df[dst] = df[src].apply(f)` / accessor derivation: read column
`src` (`KeyError` when absent), map `f`, assign as column `dst`. -/
def deriveColE (src dst : String) (f : Value → Except String Value) (df : DataFrame) :
    Except String DataFrame := do
  let vals ← getColE src df
  let vals2 ← vals.mapM f
  Except.ok ((df.zip vals2).map (fun rv => rset dst rv.2 rv.1))

/-- `feature_engineering.criar_features_datas`: day/month/year, ISO
week and weekday of `data`, then day/month/year of `proximoConcurso`. -/
def criar_features_datas (df : DataFrame) : Except String DataFrame := do
  let df ← deriveColE "data" "data_dia" dtDay df
  let df ← deriveColE "data" "data_mes" dtMonth df
  let df ← deriveColE "data" "data_ano" dtYear df
  let df ← deriveColE "data" "semana_ano_concurso" dtIsoWeek df
  let df ← deriveColE "data" "dia_semana_concurso" dtWeekday df
  let df ← deriveColE "proximoConcurso" "proximoConcurso_dia" dtDay df
  let df ← deriveColE "proximoConcurso" "proximoConcurso_mes" dtMonth df
  deriveColE "proximoConcurso" "proximoConcurso_ano" dtYear df

/-- The `qtd_dezenas` helper of `expandir_dezenas`:
`len(x) if isinstance(x, list) else 0`. -/
def qtdDezenas (r : Row) : Nat :=
  match rlookup "dezenas" r with
  | some (Value.list xs) => xs.toList.length
  | _ => 0

/-- Element `i` of the row's `dezenas`:
`x[i] if isinstance(x, list) and len(x) > i else None`. -/
def dezenaAt (i : Nat) (r : Row) : Value :=
  match rlookup "dezenas" r with
  | some (Value.list xs) => (xs.toList.get? i).getD Value.null
  | _ => Value.null

/-- Remove a column from a row (pandas `df.drop(columns=[k])` removes
every column labelled `k`). -/
def rdrop (k : String) (r : Row) : Row :=
  r.filter (fun kv => decide (kv.1 ≠ k))

/-- `feature_engineering.expandir_dezenas`: a transient `qtd_dezenas`
column, `dezena_1..dezena_N` for `N` the maximum observed length, then
the transient column is dropped.  On an empty batch `.max()` is `NaN`
and `range(NaN)` raises `TypeError`. -/
def expandir_dezenas (df : DataFrame) : Except String DataFrame := do
  let _ ← getColE "dezenas" df
  let df1 := df.map (fun r => rset "qtd_dezenas" (Value.int (qtdDezenas r)) r)
  match df with
  | [] => Except.error "TypeError: range() arg must be an int, not float"
  | _ =>
    let maxd := (df.map qtdDezenas).foldl max 0
    let df2 := (List.range maxd).foldl
      (fun d i => d.map (fun r => rset ("dezena_" ++ toString (i + 1)) (dezenaAt i r) r)) df1
    Except.ok (df2.map (rdrop "qtd_dezenas"))

/-- First-occurrence split on a (non-empty) separator substring:
`before` and `after`, or `none` when the separator does not occur. -/
def splitFirstSub (sep : List Char) : List Char → Option (List Char × List Char)
  | [] => none
  | c :: rest =>
    if sep.isPrefixOf (c :: rest) then some ([], (c :: rest).drop sep.length)
    else
      match splitFirstSub sep rest with
      | some (a, b) => some (c :: a, b)
      | none => none

/-- Last-occurrence split on a (non-empty) separator substring. -/
def splitLastSub (sep : List Char) : List Char → Option (List Char × List Char)
  | [] => none
  | c :: rest =>
    match splitLastSub sep rest with
    | some (a, b) => some (c :: a, b)
    | none =>
      if sep.isPrefixOf (c :: rest) then some ([], (c :: rest).drop sep.length)
      else none

/-- One cell of `Series.str.split(sep, n=1)`: a matching string gives
two parts, a non-matching string one part (second component missing),
a non-string gives missing in both. -/
def strSplitCell (sep : List Char) (first : Bool) (v : Value) : Value × Value :=
  match v with
  | Value.str s =>
    match (if first then splitFirstSub sep s.data else splitLastSub sep s.data) with
    | some (a, b) => (Value.str (String.mk a), Value.str (String.mk b))
    | none => (Value.str s, Value.null)
  | _ => (Value.null, Value.null)

/-- Whether some cell is a string containing the separator (so that
`expand=True` yields two columns; when no cell does, the two-column
assignment raises `ValueError`). -/
def anySplitMatch (sep : List Char) (first : Bool) (vals : List Value) : Bool :=
  vals.any (fun v =>
    match v with
    | Value.str s => (if first then splitFirstSub sep s.data else splitLastSub sep s.data).isSome
    | _ => false)

/-- `feature_engineering.separar_local`: no-op without a `local`
column; otherwise split on the first `" em "` into
`nome_local`/`resto`, split `resto` on the last `", "` into
`cidade`/`estado`, and drop `resto`. -/
def separar_local (df : DataFrame) : Except String DataFrame :=
  if ¬ hasCol df "local" then Except.ok df
  else do
    let locals ← getColE "local" df
    if ¬ anySplitMatch " em ".data true locals then
      Except.error "ValueError: Columns must be same length as key"
    else
      let pairs := locals.map (strSplitCell " em ".data true)
      let df1 := (df.zip pairs).map (fun rp => rset "resto" rp.2.2 (rset "nome_local" rp.2.1 rp.1))
      let restos := pairs.map Prod.snd
      if ¬ anySplitMatch ", ".data false restos then
        Except.error "ValueError: Columns must be same length as key"
      else
        let pairs2 := restos.map (strSplitCell ", ".data false)
        let df2 := (df1.zip pairs2).map (fun rp => rset "estado" rp.2.2 (rset "cidade" rp.2.1 rp.1))
        Except.ok (df2.map (rdrop "resto"))

/-- The defensive re-parse of `premiacoes` in
`aplicar_expansao_premiacoes`: a string goes through
`ast.literal_eval` (raising on failure — no `try` here), a list passes
through, anything else becomes `None`. -/
def reparsePremiacoes (v : Value) : Except String Value :=
  match v with
  | Value.str s =>
    match literalEvalV s with
    | some w => Except.ok w
    | none => Except.error "ValueError: malformed node or string"
  | Value.list xs => Except.ok (Value.list xs)
  | _ => Except.ok Value.null

/-- Loop body of `expandir_premiacoes_loteria`: each tier record must
be a dict (`item.get` raises otherwise); a missing or `None` `faixa`
is skipped; otherwise `ganhadores_faixa_<faixa>` and
`valor_faixa_<faixa>` are inserted (dict insert-or-overwrite). -/
def expandPremList : List Value → Row → Except String Row
  | [], acc => Except.ok acc
  | item :: rest, acc =>
    match item with
    | Value.dict kvs =>
      let faixa := (rlookup "faixa" kvs.toPairs).getD Value.null
      if faixa = Value.null then expandPremList rest acc
      else
        let g := (rlookup "ganhadores" kvs.toPairs).getD Value.null
        let vp := (rlookup "valorPremio" kvs.toPairs).getD Value.null
        expandPremList rest
          (rset ("valor_faixa_" ++ pyStr faixa) vp
            (rset ("ganhadores_faixa_" ++ pyStr faixa) g acc))
    | _ => Except.error "AttributeError: object has no attribute get"

/-- `feature_engineering.expandir_premiacoes_loteria`: `{}` for a
non-list, else the tier expansion. -/
def expandir_premiacoes_loteria (v : Value) : Except String Row :=
  match v with
  | Value.list xs => expandPremList xs.toList []
  | _ => Except.ok []

/-- Distinct keys in order of first appearance across rows (column
construction of `pd.DataFrame(list-of-dicts)`). -/
def unionKeys (rows : List Row) : List String :=
  rows.foldl (fun acc r => acc ++ (rkeys r).filter (fun k => decide (k ∉ acc))) []

/-- Numeric view of a cell for pandas row-wise sums and divisions. -/
def valToFloat? : Value → Option PyFloat
  | Value.int n => some (pfOfInt n)
  | Value.num q => some q
  | Value.bool b => some (pfOfInt (if b then 1 else 0))
  | _ => none

/-- pandas `df[cols].sum(axis=1)` on one row: missing values are
skipped (`skipna`), the empty sum is 0.  (Non-numeric cells are also
skipped; the feed never mixes strings into tier columns.) -/
def pandasRowSum (vals : List Value) : Value :=
  Value.num (vals.foldl
    (fun acc v => match valToFloat? v with | some q => pfAdd acc q | none => acc) pfZero)

/-- pandas column division (`s1 / s2`): float division that never
raises; a zero denominator yields a non-finite `inf`/`NaN`, collapsed
to missing here (its only observed property in the pipeline is being
neither raised nor a finite number), and a missing operand yields
missing. -/
def pandasDiv (a b : Value) : Value :=
  match valToFloat? a, valToFloat? b with
  | some x, some y => if y.n = 0 then Value.null else Value.num (pfDiv x y)
  | _, _ => Value.null

/-- String prefix test (character-level). -/
def strHasPrefix (p s : String) : Bool := p.data.isPrefixOf s.data

/-- The tail of `aplicar_expansao_premiacoes` from the `pd.concat`
fork onward (`feature_engineering.py:111-121`): expand the per-row
tier dicts, concatenate the column-union frame (missing tiers become
missing) — `pd.concat` builds a NEW frame, so everything from here on
lives on a fresh object — then `total_ganhadores`,
`total_pago_premios` and `media_premio_real`. -/
def expandir_e_concatenar_premiacoes (df : DataFrame) : Except String DataFrame := do
  let premRows ← (df.map (fun r => (rlookup "premiacoes" r).getD Value.null)).mapM
    expandir_premiacoes_loteria
  let cols := unionKeys premRows
  let aligned := premRows.map (fun pr => cols.map (fun c => (c, (rlookup c pr).getD Value.null)))
  let df2 := (df.zip aligned).map (fun rp => rp.1 ++ rp.2)
  let colsDf := match df2 with | [] => [] | r :: _ => rkeys r
  let colsGan := colsDf.filter (fun c => strHasPrefix "ganhadores_faixa_" c)
  let colsVal := colsDf.filter (fun c => strHasPrefix "valor_faixa_" c)
  let df3 := df2.map (fun r =>
    rset "total_ganhadores" (pandasRowSum (colsGan.map (fun c => (rlookup c r).getD Value.null))) r)
  let df4 := df3.map (fun r =>
    rset "total_pago_premios" (pandasRowSum (colsVal.map (fun c => (rlookup c r).getD Value.null))) r)
  Except.ok (df4.map (fun r =>
    rset "media_premio_real"
      (pandasDiv ((rlookup "total_pago_premios" r).getD Value.null)
        ((rlookup "total_ganhadores" r).getD Value.null)) r))

/-- `feature_engineering.aplicar_expansao_premiacoes`: first the
defensive re-parse of `premiacoes`, written with `df["premiacoes"] =
...` into the frame passed in (`feature_engineering.py:106-109`), then
the tier expansion from the `pd.concat` fork onward. -/
def aplicar_expansao_premiacoes (df : DataFrame) : Except String DataFrame := do
  let df ← mapColE "premiacoes" reparsePremiacoes df
  expandir_e_concatenar_premiacoes df

/-- `normalizar_local` inside `processar_local_ganhadores`: a list
passes through, anything else becomes the empty list. -/
def normalizar_local (v : Value) : Value :=
  match v with
  | Value.list xs => Value.list xs
  | _ => vlist []

/-- `x[0].get(field) if len(x) > 0 else None` over the normalized
`localGanhadores` cell; the head must be a dict (`get` raises
otherwise). -/
def locFirstGet (field : String) (v : Value) : Except String Value :=
  match v with
  | Value.list xs =>
    match xs.toList with
    | [] => Except.ok Value.null
    | first :: _ =>
      match first with
      | Value.dict kvs => Except.ok ((rlookup field kvs.toPairs).getD Value.null)
      | _ => Except.error "AttributeError: object has no attribute get"
  | _ => Except.error "TypeError: object has no len()"

/-- Python `x.strip().upper()` on a cell that must be a string. -/
def pyStripUpper (v : Value) : Except String String :=
  match v with
  | Value.str s => Except.ok (String.mk ((trimChars s.data).map Char.toUpper))
  | _ => Except.error "AttributeError: object has no attribute strip"

/-- `is_ticket_online` of `processar_local_ganhadores`: empty location
list gives `False`; else the first record's `municipio`/`uf` (default
`""` when the key is absent) are stripped, upper-cased and compared
with the online-ticket sentinels. -/
def is_ticket_online (v : Value) : Except String Value :=
  match v with
  | Value.list xs =>
    match xs.toList with
    | [] => Except.ok (Value.bool false)
    | first :: _ =>
      match first with
      | Value.dict kvs => do
        let mun ← pyStripUpper ((rlookup "municipio" kvs.toPairs).getD (Value.str ""))
        let uf ← pyStripUpper ((rlookup "uf" kvs.toPairs).getD (Value.str ""))
        Except.ok (Value.bool (mun = "CANAL ELETRONICO" ∨ uf = "BR"))
      | _ => Except.error "AttributeError: object has no attribute get"
  | _ => Except.error "TypeError: object has no len()"

/-- `feature_engineering.processar_local_ganhadores`. -/
def processar_local_ganhadores (df : DataFrame) : Except String DataFrame := do
  let df ← mapColE "localGanhadores" (fun v => Except.ok (normalizar_local v)) df
  let df ← deriveColE "localGanhadores" "municipioGanhador" (locFirstGet "municipio") df
  let df ← deriveColE "localGanhadores" "ufGanhador" (locFirstGet "uf") df
  deriveColE "localGanhadores" "ticketGanhadorOnline" is_ticket_online df

/-- `feature_engineering.normalizar_dezenas`: force every element to
`int`; any coercion failure nullifies the whole list. -/
def normalizar_dezenas (v : Value) : Value :=
  match v with
  | Value.list xs =>
    match xs.toList.mapM pyInt with
    | some ns => vlist (ns.map Value.int)
    | none => Value.null
  | _ => Value.null

/-- `df["valorArrecadado"].replace(0, None)`: a numeric zero becomes
missing; everything else passes through. -/
def replaceZeroNone (v : Value) : Value :=
  match v with
  | Value.int n => if n = 0 then Value.null else Value.int n
  | Value.num q => if q.n = 0 then Value.null else Value.num q
  | w => w

/-- Row lookup raising `KeyError` (`row[k]` inside `df.apply`). -/
def keyE (r : Row) (k : String) : Except String Value :=
  match rlookup k r with
  | some v => Except.ok v
  | none => Except.error ("KeyError: " ++ k)

/-- Python `in [None, 0]` test of `calcular_razao`: `None`, integer or
float zero, and `False` (Python `False == 0`). -/
def isNoneOrZero (v : Value) : Bool :=
  match v with
  | Value.null => true
  | Value.int n => n = 0
  | Value.num q => q.n = 0
  | Value.bool b => !b
  | _ => false

/-- Python `/` on two cells (raises on non-numeric operands; the zero
divisor is excluded by the caller's guard). -/
def pyDivE (a b : Value) : Except String Value :=
  match valToFloat? a, valToFloat? b with
  | some x, some y =>
    if y.n = 0 then Except.error "ZeroDivisionError: float division by zero"
    else Except.ok (Value.num (pfDiv x y))
  | _, _ => Except.error "TypeError: unsupported operand type for /"

/-- `feature_engineering.calcular_razao` on one row: `None` when the
accumulated value is `None`/`NaN`/zero or the estimate is
`None`/`NaN`; otherwise their quotient. -/
def calcular_razao (r : Row) : Except String Value := do
  let acumulado ← keyE r "valorAcumuladoProximoConcurso"
  let estimado ← keyE r "valorEstimadoProximoConcurso"
  if isNoneOrZero acumulado then Except.ok Value.null
  else if estimado = Value.null then Except.ok Value.null
  else pyDivE estimado acumulado

/-- `qtd_pares` cell: count of even entries of the (re-normalized)
`dezenas` list, `None` for a non-list (`%` raises on a non-int entry,
which normalization makes unreachable). -/
def countEvenE (v : Value) : Except String Value :=
  match v with
  | Value.list xs => do
    let ns ← xs.toList.mapM (fun w =>
      match w with
      | Value.int n => Except.ok n
      | _ => Except.error "TypeError: unsupported operand type for %")
    Except.ok (Value.int ((ns.filter (fun n => n % 2 = 0)).length))
  | _ => Except.ok Value.null

/-- `qtd_impares` cell. -/
def countOddE (v : Value) : Except String Value :=
  match v with
  | Value.list xs => do
    let ns ← xs.toList.mapM (fun w =>
      match w with
      | Value.int n => Except.ok n
      | _ => Except.error "TypeError: unsupported operand type for %")
    Except.ok (Value.int ((ns.filter (fun n => ¬ n % 2 = 0)).length))
  | _ => Except.ok Value.null

/-- `range_dezenas` cell: `max(x) - min(x)` for a list of length ≥ 2,
else `None`. -/
def rangeDezenasE (v : Value) : Except String Value :=
  match v with
  | Value.list xs =>
    if xs.toList.length ≥ 2 then do
      let ns ← xs.toList.mapM (fun w =>
        match w with
        | Value.int n => Except.ok n
        | _ => Except.error "TypeError: comparison not supported")
      match ns with
      | [] => Except.error "ValueError: max() arg is an empty sequence"
      | h :: t => Except.ok (Value.int (t.foldl max h - t.foldl min h))
    else Except.ok Value.null
  | _ => Except.ok Value.null

/-- `feature_engineering.criar_features_numericas`. -/
def criar_features_numericas (df : DataFrame) : Except String DataFrame := do
  let df ← mapColE "valorArrecadado" (fun v => Except.ok (replaceZeroNone v)) df
  let razoes ← df.mapM calcular_razao
  let df := (df.zip razoes).map (fun rp => rset "razaoEstimadoAcumulado" rp.2 rp.1)
  let df ← mapColE "dezenas" (fun v => Except.ok (normalizar_dezenas v)) df
  let df ← deriveColE "dezenas" "qtd_pares" countEvenE df
  let df ← deriveColE "dezenas" "qtd_impares" countOddE df
  deriveColE "dezenas" "range_dezenas" rangeDezenasE df

/-- `feature_engineering.feature_engineering_etapa2`: the six feature
derivations in order (no copy is ever taken; see the heap layer below
for which of them reach the caller's object). -/
def feature_engineering_etapa2 (df : DataFrame) : Except String DataFrame := do
  let df ← criar_features_datas df
  let df ← expandir_dezenas df
  let df ← separar_local df
  let df ← aplicar_expansao_premiacoes df
  let df ← processar_local_ganhadores df
  criar_features_numericas df

/-- The prefix of the feature stage that writes into the caller's own
frame object: date features, the `dezena_N` expansion and the venue
split all assign columns in place (plain `df[col] = ...` /
`inplace=True` drops), and so does the `premiacoes` re-parse that
opens `aplicar_expansao_premiacoes` — everything before the
`pd.concat` fork at `feature_engineering.py:113`. -/
def feature_preconcat (df : DataFrame) : Except String DataFrame := do
  let df ← criar_features_datas df
  let df ← expandir_dezenas df
  let df ← separar_local df
  mapColE "premiacoes" reparsePremiacoes df

/-- Left-pad with zeros to width `k`. -/
def padZeros (k : Nat) (s : String) : String :=
  String.mk (List.replicate (k - s.length) '0') ++ s

/-- Smallest `k ≤ 30` with `d ∣ 10^k` (every float the pipeline builds
comes from a decimal literal, so its reduced denominator divides a
power of ten). -/
def pow10DenExp (d : Nat) : Option Nat :=
  (List.range 31).find? (fun k => 10 ^ k % d = 0)

/-- `json.dumps` rendering of a float. -/
def jsonNum (q : PyFloat) : String :=
  match pow10DenExp q.d with
  | some 0 => toString q.n ++ ".0"
  | some k =>
    let m := q.n.natAbs * 10 ^ k / q.d
    (if q.n < 0 then "-" else "") ++ toString (m / 10 ^ k) ++ "." ++ padZeros k (toString (m % 10 ^ k))
  | none => toString q.n ++ "/" ++ toString q.d

/-- JSON string escaping (quote and backslash; the feed carries no
control characters). -/
def jsonEscape (s : String) : String :=
  String.mk (s.data.foldr
    (fun c acc => if c = '"' ∨ c = '\\' then '\\' :: c :: acc else c :: acc) [])

mutual
/-- `json.dumps` rendering of a cell.  pandas missing values are the
float `NaN`, which `json.dumps` renders as the bare token `NaN`. -/
def jsonEncode : Value → String
  | Value.null => "NaN"
  | Value.bool b => if b then "true" else "false"
  | Value.int n => toString n
  | Value.num q => jsonNum q
  | Value.str s => "\"" ++ jsonEscape s ++ "\""
  | Value.date _ => "<Timestamp>"
  | Value.list xs => "[" ++ jsonEncodeList xs ++ "]"
  | Value.dict kvs => "\x7b" ++ jsonEncodeKV kvs ++ "\x7d"
/-- Comma-joined rendering of list items. -/
def jsonEncodeList : VList → String
  | VList.nil => ""
  | VList.cons v VList.nil => jsonEncode v
  | VList.cons v tl => jsonEncode v ++ ", " ++ jsonEncodeList tl
/-- Comma-joined rendering of dict entries. -/
def jsonEncodeKV : KVList → String
  | KVList.nil => ""
  | KVList.cons k v KVList.nil => "\"" ++ jsonEscape k ++ "\": " ++ jsonEncode v
  | KVList.cons k v tl => "\"" ++ jsonEscape k ++ "\": " ++ jsonEncode v ++ ", " ++ jsonEncodeKV tl
end

mutual
/-- Whether a `Timestamp` occurs anywhere in the cell (`json.dumps`
raises `TypeError` on it; the `jsonEncode` arm for dates is never
reached on serializable cells). -/
def hasTimestamp : Value → Bool
  | Value.date _ => true
  | Value.list xs => hasTimestampL xs
  | Value.dict kvs => hasTimestampKV kvs
  | _ => false
/-- List version of `hasTimestamp`. -/
def hasTimestampL : VList → Bool
  | VList.nil => false
  | VList.cons v tl => hasTimestamp v || hasTimestampL tl
/-- Dict version of `hasTimestamp`. -/
def hasTimestampKV : KVList → Bool
  | KVList.nil => false
  | KVList.cons _ v tl => hasTimestamp v || hasTimestampKV tl
end

/-- `json.dumps` on a cell: serialized text, or `TypeError` on
non-serializable content. -/
def jsonDumpsE (v : Value) : Except String Value :=
  if hasTimestamp v then Except.error "TypeError: Object of type Timestamp is not JSON serializable"
  else Except.ok (Value.str (jsonEncode v))

/-- Whether the cell is a Python list. -/
def isListV : Value → Bool
  | Value.list _ => true
  | _ => false

/-- `df.columns` (keyed on the first row; pandas rows are
column-uniform). -/
def colNames (df : DataFrame) : List String :=
  match df with
  | [] => []
  | r :: _ => rkeys r

/-- One iteration of the `listas_para_json` loop: when any value of
column `c` is a list, the whole column goes through `json.dumps`
(including its non-list values); otherwise the frame is untouched. -/
def jsonColStep (d : DataFrame) (c : String) : Except String DataFrame :=
  if (d.map (fun r => (rlookup c r).getD Value.null)).any isListV then
    d.mapM (rmapValE c jsonDumpsE)
  else Except.ok d

/-- `transform_to_sqlite.listas_para_json`: work on a copy; for each
column (in order), when any of its values is a list, re-write the
whole column through `json.dumps` — including its non-list values,
so a missing value in such a column is stored as the text `NaN`; a
column with no list value is left completely unchanged. -/
def listas_para_json (df : DataFrame) : Except String DataFrame :=
  (colNames df).foldlM jsonColStep df

/-- The SQLite store: one relation per table name. -/
structure SqliteDB where
  tables : List (String × DataFrame)
deriving DecidableEq

/-- `to_sql(..., if_exists="replace")`: any prior relation of the same
name is destroyed and the batch becomes the whole relation. -/
def writeTableReplace (db : SqliteDB) (name : String) (rows : DataFrame) : SqliteDB :=
  ⟨(name, rows) :: db.tables.filter (fun t => decide (t.1 ≠ name))⟩

/-- Rows of a named relation. -/
def tableRows (db : SqliteDB) (name : String) : Option DataFrame :=
  match db.tables.find? (fun t => decide (t.1 = name)) with
  | some t => some t.2
  | none => none

/-- `transform_to_sqlite.salvar_sqlite`: table name from the first
row's lower-cased `loteria` (computed before connecting), then
`sqlite3.connect`, `to_sql(..., if_exists="replace")` inside `try`,
`conn.close()` in `finally`.  `writeOk` is the external fault oracle
for the store (`false` makes `to_sql` raise).  The second component
states that no connection is left open when the call returns: `true`
on the success path, the failure path, and the path that raises before
connecting. -/
def salvar_sqlite (df : DataFrame) (db : SqliteDB) (writeOk : Bool) :
    (Except String SqliteDB) × Bool :=
  match ilocFirst df "loteria" with
  | Except.error e => (Except.error e, true)
  | Except.ok v =>
    let nome := pyLower (pyStr v)
    if writeOk then (Except.ok (writeTableReplace db nome df), true)
    else (Except.error "OperationalError: unable to write to database", true)

/-- `transform_to_sqlite.salvar_no_sqlite_etapa3`: list columns to
JSON text, then the SQLite write (the default path handling touches no
table data and is not modelled). -/
def salvar_no_sqlite_etapa3 (df : DataFrame) (db : SqliteDB) (writeOk : Bool) :
    (Except String SqliteDB) × Bool :=
  match listas_para_json df with
  | Except.error e => (Except.error e, true)
  | Except.ok dfj => salvar_sqlite dfj db writeOk

/-- Python object heap fragment holding the DataFrames: reference
(object identity) to table value.  Python assignment copies the
reference, not the table, so in-place column insertion is visible
through every alias. -/
abbrev Heap := List (Nat × DataFrame)

/-- Instances spelt out because instance search fails to assemble them
for the pair type (the mutual `Value` derivations make the search give
up early). -/
instance : DecidableEq (Heap × Nat) := instDecidableEqProd

instance : DecidableEq (Option (Heap × Nat)) := fun a b =>
  match a, b with
  | none, none => isTrue rfl
  | some x, some y =>
    if h : x = y then isTrue (by rw [h]) else isFalse (by intro he; injection he; contradiction)
  | none, some _ => isFalse (by intro he; exact Option.noConfusion he)
  | some _, none => isFalse (by intro he; exact Option.noConfusion he)

/-- Table currently referenced. -/
def heapGet : Heap → Nat → DataFrame
  | [], _ => []
  | (k, df) :: rest, r => if k = r then df else heapGet rest r

/-- `data_cleaning_etapa1` at the object level: the stage starts with
`df = df.copy()`, so all its mutation happens on a fresh object
`fresh`; the caller's object `r` is never touched. -/
def data_cleaning_etapa1_ref (h : Heap) (r fresh : Nat) : Except String (Heap × Nat) :=
  match data_cleaning_etapa1 (heapGet h r) with
  | Except.ok out => Except.ok ((fresh, out) :: h, fresh)
  | Except.error e => Except.error e

/-- `feature_engineering_etapa2` at the object level: the stage never
copies, so every assignment up to the `pd.concat` fork
(`feature_engineering.py:113`) lands on the caller's object at `r`,
which ends up holding the pre-concat table; `pd.concat` builds a new
frame (here the fresh object `fresh`), the remaining derivations land
on that fork, and the fork is what the stage returns. -/
def feature_engineering_etapa2_ref (h : Heap) (r fresh : Nat) : Except String (Heap × Nat) := do
  let dpre ← feature_preconcat (heapGet h r)
  let dfork ← expandir_e_concatenar_premiacoes dpre
  let d5 ← processar_local_ganhadores dfork
  let out ← criar_features_numericas d5
  Except.ok ((fresh, out) :: (r, dpre) :: h, fresh)

/-- `salvar_no_sqlite_etapa3` at the object level: `listas_para_json`
copies before rewriting columns and the write only reads, so the heap
is returned unchanged. -/
def salvar_no_sqlite_etapa3_ref (h : Heap) (r : Nat) (db : SqliteDB) (writeOk : Bool) :
    (Except String SqliteDB) × Bool × Heap :=
  let res := salvar_no_sqlite_etapa3 (heapGet h r) db writeOk
  (res.1, res.2, h)

theorem rlookup_rset_self (k : String) (v : Value) (r : Row) :
    rlookup k (rset k v r) = some v := by
  induction r with
  | nil => simp [rset, rlookup]
  | cons kv rest ih =>
    obtain ⟨k2, v2⟩ := kv
    by_cases hk : k2 = k
    · subst hk
      simp [rset, rlookup]
    · simp [rset, hk, rlookup, ih]

theorem rlookup_rset_ne (k k2 : String) (v : Value) (r : Row) (h : k2 ≠ k) :
    rlookup k2 (rset k v r) = rlookup k2 r := by
  have hne : ¬ k = k2 := fun he => h he.symm
  induction r with
  | nil => simp [rset, rlookup, hne]
  | cons kv rest ih =>
    obtain ⟨k3, v3⟩ := kv
    by_cases hk : k3 = k
    · subst hk
      simp [rset, rlookup, hne]
    · simp [rset, hk, rlookup, ih]

theorem rmapVal_absent (k : String) (f : Value → Value) (r : Row)
    (h : rlookup k r = none) : rmapVal k f r = r := by
  induction r with
  | nil => rfl
  | cons kv rest ih =>
    obtain ⟨k2, v2⟩ := kv
    by_cases hk : k2 = k
    · subst hk
      simp [rlookup] at h
    · simp [rlookup, hk] at h
      simp [rmapVal, hk, ih h]

theorem rmapVal_fixpoint (k : String) (f : Value → Value) (r : Row) (v : Value)
    (hl : rlookup k r = some v) (hf : f v = v) : rmapVal k f r = r := by
  induction r with
  | nil => simp [rlookup] at hl
  | cons kv rest ih =>
    obtain ⟨k2, v2⟩ := kv
    by_cases hk : k2 = k
    · subst hk
      simp [rlookup] at hl
      simp [rmapVal, hl ▸ hf]
    · simp [rlookup, hk] at hl
      simp [rmapVal, hk, ih hl]

theorem rmapValE_absent (k : String) (f : Value → Except String Value) (r : Row)
    (h : rlookup k r = none) : rmapValE k f r = Except.ok r := by
  induction r with
  | nil => rfl
  | cons kv rest ih =>
    obtain ⟨k2, v2⟩ := kv
    by_cases hk : k2 = k
    · subst hk
      simp [rlookup] at h
    · simp [rlookup, hk] at h
      simp [rmapValE, hk, ih h]

theorem rmapValE_fixpoint (k : String) (f : Value → Except String Value) (r : Row) (v : Value)
    (hl : rlookup k r = some v) (hf : f v = Except.ok v) : rmapValE k f r = Except.ok r := by
  induction r with
  | nil => simp [rlookup] at hl
  | cons kv rest ih =>
    obtain ⟨k2, v2⟩ := kv
    by_cases hk : k2 = k
    · subst hk
      simp [rlookup] at hl
      simp [rmapValE, hl ▸ hf]
    · simp [rlookup, hk] at hl
      simp [rmapValE, hk, ih hl]

theorem list_map_id_of_mem {α : Type} (f : α → α) (l : List α) (h : ∀ x ∈ l, f x = x) :
    l.map f = l := by
  induction l with
  | nil => rfl
  | cons x rest ih =>
    simp [h x (List.mem_cons_self x rest), ih (fun y hy => h y (List.mem_cons_of_mem x hy))]

theorem mapM_ok_id {α : Type} (g : α → Except String α) (l : List α)
    (h : ∀ x ∈ l, g x = Except.ok x) : l.mapM g = Except.ok l := by
  induction l with
  | nil => rfl
  | cons x rest ih =>
    rw [List.mapM_cons, h x (List.mem_cons_self x rest),
      ih (fun y hy => h y (List.mem_cons_of_mem x hy))]
    rfl

theorem foldl_fixpoint {α β : Type} (f : β → α → β) (acc : β) (l : List α)
    (h : ∀ c ∈ l, f acc c = acc) : l.foldl f acc = acc := by
  induction l with
  | nil => rfl
  | cons c rest ih =>
    rw [List.foldl_cons, h c (List.mem_cons_self c rest)]
    exact ih (fun y hy => h y (List.mem_cons_of_mem c hy))

theorem rdropKeys_id (cd : List String) (r : Row) (h : ∀ c ∈ cd, rlookup c r = none) :
    rdropKeys cd r = r := by
  induction r with
  | nil => rfl
  | cons kv rest ih =>
    obtain ⟨k2, v2⟩ := kv
    have hk : k2 ∉ cd := by
      intro hmem
      have := h k2 hmem
      simp [rlookup] at this
    have hrest : ∀ c ∈ cd, rlookup c rest = none := by
      intro c hc
      have := h c hc
      by_cases hck : k2 = c
      · subst hck
        simp [rlookup] at this
      · simpa [rlookup, hck] using this
    simpa [rdropKeys, hk] using ih hrest

theorem filterME_ok_mem {α : Type} {p : α → Except String Bool} :
    ∀ {l l2 : List α}, filterME p l = Except.ok l2 → ∀ r ∈ l2, r ∈ l ∧ p r = Except.ok true := by
  intro l
  induction l with
  | nil =>
    intro l2 h r hr
    simp [filterME] at h
    subst h
    simp at hr
  | cons a rest ih =>
    intro l2 h r hr
    unfold filterME at h
    cases hp : p a with
    | error e => rw [hp] at h; cases h
    | ok b =>
      rw [hp] at h
      cases hrest : filterME p rest with
      | error e => rw [hrest] at h; cases h
      | ok l3 =>
        rw [hrest] at h
        injection h with h2
        subst h2
        cases b with
        | true =>
          rcases List.mem_cons.mp (by simpa using hr) with hx | hx
          · subst hx
            exact ⟨List.mem_cons_self r rest, hp⟩
          · obtain ⟨h1, h2⟩ := ih hrest r hx
            exact ⟨List.mem_cons_of_mem a h1, h2⟩
        | false =>
          obtain ⟨h1, h2⟩ := ih hrest r (by simpa using hr)
          exact ⟨List.mem_cons_of_mem a h1, h2⟩

theorem filterME_all_true {α : Type} {p : α → Except String Bool} {l : List α}
    (h : ∀ r ∈ l, p r = Except.ok true) : filterME p l = Except.ok l := by
  induction l with
  | nil => rfl
  | cons x rest ih =>
    unfold filterME
    rw [h x (List.mem_cons_self x rest), ih (fun y hy => h y (List.mem_cons_of_mem x hy))]
    simp

theorem getColE_ok_of_present {c : String} {df : DataFrame}
    (h : ∀ r ∈ df, (rlookup c r).isSome) : ∃ vs, getColE c df = Except.ok vs := by
  induction df with
  | nil => exact ⟨[], rfl⟩
  | cons r rest ih =>
    have h1 := h r (List.mem_cons_self r rest)
    obtain ⟨v, hv⟩ := Option.isSome_iff_exists.mp h1
    obtain ⟨vs, hvs⟩ := ih (fun y hy => h y (List.mem_cons_of_mem r hy))
    refine ⟨v :: vs, ?_⟩
    unfold getColE at hvs ⊢
    rw [List.mapM_cons, hv]
    simp only [hvs]
    rfl

theorem lrows_indexFrom (df : DataFrame) : ∀ i, lrows (indexFrom i df) = df := by
  induction df with
  | nil => intro i; rfl
  | cons r rest ih =>
    intro i
    show r :: lrows (indexFrom (i + 1) rest) = r :: rest
    rw [ih]

theorem lrows_withIndex (df : DataFrame) : lrows (withIndex df) = df :=
  lrows_indexFrom df 0

theorem mem_indexFrom_snd {df : DataFrame} :
    ∀ {i : Nat} {p : Nat × Row}, p ∈ indexFrom i df → p.2 ∈ df := by
  induction df with
  | nil => intro i p hp; cases hp
  | cons r rest ih =>
    intro i p hp
    rcases List.mem_cons.mp hp with he | hm
    · subst he; exact List.mem_cons_self r rest
    · exact List.mem_cons_of_mem r (ih hm)

theorem validar_split {L : LFrame} {out : DataFrame} (h : validar_dezenas L = Except.ok out) :
    ∃ r0 d0 expected L2, loc0 L = Except.ok r0 ∧ rlookup "dezenas" r0 = some d0 ∧
      pyLenE d0 = Except.ok expected ∧
      filterME (fun p => rangePredE p.2) (L.filter (fun p => lenPred expected p.2)) =
        Except.ok L2 ∧
      out = lrows L2 := by
  cases h0 : loc0 L with
  | error e => simp [validar_dezenas, h0, Bind.bind, Except.bind] at h
  | ok r0 =>
    cases hd : rlookup "dezenas" r0 with
    | none => simp [validar_dezenas, h0, hd, Bind.bind, Except.bind] at h
    | some d0 =>
      cases hl : pyLenE d0 with
      | error e => simp [validar_dezenas, h0, hd, hl, Bind.bind, Except.bind] at h
      | ok expected =>
        simp only [validar_dezenas, h0, hd, hl, Bind.bind, Except.bind] at h
        cases hf : filterME (fun p => rangePredE p.2)
            (L.filter (fun p => lenPred expected p.2)) with
        | error e => rw [hf] at h; cases h
        | ok L2 =>
          rw [hf] at h
          injection h with h2
          exact ⟨r0, d0, expected, L2, rfl, hd, hl, hf, h2.symm⟩

theorem validar_facts {L : LFrame} {out : DataFrame} (h : validar_dezenas L = Except.ok out) :
    ∃ expected, ∀ r ∈ out, lenPred expected r = true ∧ rangePredE r = Except.ok true := by
  obtain ⟨r0, d0, expected, L2, h0, hd, hl, hf, hout⟩ := validar_split h
  refine ⟨expected, fun r hr => ?_⟩
  rw [hout] at hr
  simp only [lrows] at hr
  obtain ⟨p, hp, hpr⟩ := List.mem_map.mp hr
  obtain ⟨hmem, hprop⟩ := filterME_ok_mem hf p hp
  have hlen : lenPred expected p.2 = true := (List.mem_filter.mp hmem).2
  subst hpr
  exact ⟨hlen, hprop⟩

theorem validar_fix {C : DataFrame} {r0 : Row} {rest : DataFrame} {ys : VList}
    (hdf : C = r0 :: rest)
    (hd : rlookup "dezenas" r0 = some (Value.list ys))
    (hall : ∀ r ∈ C, lenPred ys.toList.length r = true ∧ rangePredE r = Except.ok true) :
    validar_dezenas (withIndex C) = Except.ok C := by
  subst hdf
  have hloc : loc0 (withIndex (r0 :: rest)) = Except.ok r0 := rfl
  have hsnd : ∀ p ∈ withIndex (r0 :: rest), p.2 ∈ r0 :: rest :=
    fun p hp => mem_indexFrom_snd hp
  have hfilter : (withIndex (r0 :: rest)).filter (fun p => lenPred ys.toList.length p.2) =
      withIndex (r0 :: rest) :=
    List.filter_eq_self.mpr (fun p hp => (hall p.2 (hsnd p hp)).1)
  simp only [validar_dezenas, hloc, hd, pyLenE, Bind.bind, Except.bind]
  rw [hfilter, filterME_all_true (fun p hp => (hall p.2 (hsnd p hp)).2)]
  show Except.ok (lrows (withIndex (r0 :: rest))) = Except.ok (r0 :: rest)
  rw [lrows_withIndex]

theorem clean_split {B C : DataFrame} (h : data_cleaning_etapa1 B = Except.ok C) :
    ∃ d1 L2, drop_colunas_por_loteria B = Except.ok d1 ∧
      tratar_tipos_e_colunas (withIndex d1) = Except.ok L2 ∧
      validar_dezenas (aplicar_normalizacao_listas L2) = Except.ok C := by
  unfold data_cleaning_etapa1 at h
  cases hd : drop_colunas_por_loteria B with
  | error e => rw [hd] at h; simp [Bind.bind, Except.bind] at h
  | ok d1 =>
    rw [hd] at h
    simp only [Bind.bind, Except.bind] at h
    cases ht : tratar_tipos_e_colunas (withIndex d1) with
    | error e =>
      rw [ht] at h
      cases h
    | ok L2 =>
      rw [ht] at h
      exact ⟨d1, L2, rfl, ht, h⟩

theorem rlookup_rdropKeys_mem (cd : List String) (r : Row) (c : String) (hc : c ∈ cd) :
    rlookup c (rdropKeys cd r) = none := by
  induction r with
  | nil => rfl
  | cons kv rest ih =>
    obtain ⟨k2, v2⟩ := kv
    simp only [rdropKeys, List.filter_cons] at ih ⊢
    by_cases hk : k2 ∈ cd
    · simp only [hk, decide_not, decide_eq_true_eq, not_true_eq_false, Bool.not_true,
        if_false]
      simpa using ih
    · have hne : ¬ k2 = c := fun he => hk (he ▸ hc)
      simp only [hk, decide_not, decide_eq_true_eq, not_false_eq_true, Bool.not_false,
        if_true, rlookup, hne, if_false]
      simpa using ih

theorem rlookup_rdropKeys_not_mem (cd : List String) (r : Row) (c : String) (hc : c ∉ cd) :
    rlookup c (rdropKeys cd r) = rlookup c r := by
  induction r with
  | nil => rfl
  | cons kv rest ih =>
    obtain ⟨k2, v2⟩ := kv
    simp only [rdropKeys, List.filter_cons] at ih ⊢
    by_cases hk : k2 ∈ cd
    · have hne : ¬ k2 = c := fun he => hc (he ▸ hk)
      simp only [hk, decide_not, decide_eq_true_eq, not_true_eq_false, Bool.not_true,
        if_false, rlookup, hne]
      simpa using ih
    · simp only [hk, decide_not, decide_eq_true_eq, not_false_eq_true, Bool.not_false,
        if_true, rlookup]
      by_cases hkc : k2 = c
      · simp [hkc]
      · simp only [hkc, if_false]
        simpa using ih

/-- Typed-or-missing cell predicates (the shapes the cleaning stage
leaves its columns in). -/
def isNumOrNullV : Value → Bool
  | Value.null => true
  | Value.num _ => true
  | Value.int _ => true
  | _ => false

/-- Nullable-integer cell. -/
def isIntOrNullV : Value → Bool
  | Value.null => true
  | Value.int _ => true
  | _ => false

/-- Date-or-missing cell. -/
def isDateOrNullV : Value → Bool
  | Value.null => true
  | Value.date _ => true
  | _ => false

/-- Boolean-or-missing cell. -/
def isBoolOrNullV : Value → Bool
  | Value.null => true
  | Value.bool _ => true
  | _ => false

/-- List-or-missing cell. -/
def isListOrNullV : Value → Bool
  | Value.null => true
  | Value.list _ => true
  | _ => false

/-- C8 counterexample: on the empty batch the cleaning stage does not
return the empty batch — `df["loteria"].iloc[0]` in
`drop_colunas_por_loteria` fails before anything else runs, so the
claim "an empty input batch propagates that shape" is false on the
code. -/
theorem c8_counterexample : data_cleaning_etapa1 ([] : DataFrame) ≠ Except.ok [] := by decide

/-- C8 (amended): for the empty input batch the cleaning stage raises
(`IndexError` from the first-row lottery lookup at
`data_cleaning.py:19`) instead of propagating the empty shape. -/
theorem c8_empty_batch_raises :
    data_cleaning_etapa1 ([] : DataFrame) =
      Except.error "IndexError: single positional indexer is out-of-bounds" := by decide

/-- C2 failing input: a batch with a `loteria` column whose only flaw
is row-level (an unparseable `data` value). -/
def c2_failing_batch : DataFrame :=
  [[("loteria", Value.str "megasena"), ("concurso", Value.int 1),
    ("data", Value.str "not a date"), ("proximoConcurso", Value.str "01/01/2020"),
    ("dezenas", vlist [Value.int 4, Value.int 8])]]

/-- C2 (code bug): the claim — backed by the spec's "coercion failure
→ null" policy — says an unparseable `data` value produces null, but
`tratar_tipos_e_colunas` calls `pd.to_datetime(df["data"],
dayfirst=True, format="mixed")` with no `errors="coerce"`
(`data_cleaning.py:58`), so the stage raises `ValueError` on this
row-level data-quality issue instead of nulling it. -/
theorem c2_unparseable_date_raises :
    data_cleaning_etapa1 c2_failing_batch =
      Except.error "ValueError: could not parse date not a date" := by decide

/-- C3: for a non-empty batch whose first row carries `loteria = v`,
the cleaning stage's column pruning succeeds and removes exactly the
columns of the fixed drop table for that (lower-cased) lottery — every
dropped column reads as absent afterwards, every other column is
untouched — and the drop table is exactly megasena/lotofacil ↦
{timeCoracao, mesSorte, trevos}, maismilionaria ↦ {timeCoracao,
mesSorte}, timemania ↦ {mesSorte, trevos}, diadesorte ↦ {timeCoracao,
trevos}, anything else ↦ ∅ (a column of the drop set absent from the
input is simply not there in the output either — never an error). -/
theorem c3_drop_exact (df : DataFrame) (r0 : Row) (rest : DataFrame) (v : Value)
    (hdf : df = r0 :: rest) (hlot : rlookup "loteria" r0 = some v) :
    ∃ C, drop_colunas_por_loteria df = Except.ok C ∧ C.length = df.length ∧
      (∀ i r, df.get? i = some r → ∃ r2, C.get? i = some r2 ∧
        (∀ c ∈ dropSetFor (pyLower (pyStr v)), rlookup c r2 = none) ∧
        (∀ c, c ∉ dropSetFor (pyLower (pyStr v)) → rlookup c r2 = rlookup c r)) ∧
      dropSetFor "megasena" = ["timeCoracao", "mesSorte", "trevos"] ∧
      dropSetFor "lotofacil" = ["timeCoracao", "mesSorte", "trevos"] ∧
      dropSetFor "maismilionaria" = ["timeCoracao", "mesSorte"] ∧
      dropSetFor "timemania" = ["mesSorte", "trevos"] ∧
      dropSetFor "diadesorte" = ["timeCoracao", "trevos"] ∧
      (∀ s, s ∉ ["megasena", "lotofacil", "maismilionaria", "timemania", "diadesorte"] →
        dropSetFor s = []) := by
  subst hdf
  refine ⟨(r0 :: rest).map (rdropKeys (dropSetFor (pyLower (pyStr v)))), ?_, by simp, ?_,
    by decide, by decide, by decide, by decide, by decide, ?_⟩
  · simp [drop_colunas_por_loteria, ilocFirst, hlot, Bind.bind, Except.bind]
  · intro i r hi
    refine ⟨rdropKeys (dropSetFor (pyLower (pyStr v))) r, ?_, ?_, ?_⟩
    · rw [List.get?_map, hi]
      rfl
    · exact fun c hc => rlookup_rdropKeys_mem _ r c hc
    · exact fun c hc => rlookup_rdropKeys_not_mem _ r c hc
  · intro s hs
    simp only [List.mem_cons, List.not_mem_nil, or_false, not_or] at hs
    obtain ⟨h1, h2, h3, h4, h5⟩ := hs
    simp [dropSetFor, h1, h2, h3, h4, h5]

/-- C4: on a row whose two monetary fields are present and
numeric-or-missing (the shapes cleaning leaves — covering both the
integer-represented and the float-represented cells),
`razaoEstimadoAcumulado` is null whenever
`valorAcumuladoProximoConcurso` is missing or zero — `isNoneOrZero` is
the code's `acumulado in [None, 0] or isna` test, and the first
conjunct pins it to exactly the missing/zero cells — or
`valorEstimadoProximoConcurso` is missing, and equals the float
quotient estimate/accumulated whenever the denominator is present and
non-zero and the numerator is present. -/
theorem c4_razao_cases (r : Row) (a e : Value)
    (ha : rlookup "valorAcumuladoProximoConcurso" r = some a)
    (he : rlookup "valorEstimadoProximoConcurso" r = some e)
    (hat : isNumOrNullV a = true) (het : isNumOrNullV e = true) :
    ((a = Value.null ∨ a = Value.int 0 ∨ (∃ qa, a = Value.num qa ∧ qa.n = 0)) ↔
      isNoneOrZero a = true) ∧
    (isNoneOrZero a = true → calcular_razao r = Except.ok Value.null) ∧
    (e = Value.null → calcular_razao r = Except.ok Value.null) ∧
    (isNoneOrZero a = false → e ≠ Value.null →
      ∃ qa qe, valToFloat? a = some qa ∧ valToFloat? e = some qe ∧
        calcular_razao r = Except.ok (Value.num (pfDiv qe qa))) := by
  refine ⟨⟨?_, ?_⟩, ?_, ?_, ?_⟩
  · rintro (hz | hz | ⟨qa, hz, hn⟩)
    · subst hz; rfl
    · subst hz; rfl
    · subst hz; simp [isNoneOrZero, hn]
  · intro hz
    cases a with
    | null => exact Or.inl rfl
    | int n =>
      have hn : n = 0 := by simpa [isNoneOrZero] using hz
      exact Or.inr (Or.inl (by rw [hn]))
    | num q =>
      have hn : q.n = 0 := by simpa [isNoneOrZero] using hz
      exact Or.inr (Or.inr ⟨q, rfl, hn⟩)
    | bool b => simp [isNumOrNullV] at hat
    | str s => simp [isNumOrNullV] at hat
    | date d => simp [isNumOrNullV] at hat
    | list xs => simp [isNumOrNullV] at hat
    | dict kvs => simp [isNumOrNullV] at hat
  · intro hz
    simp [calcular_razao, keyE, ha, he, Bind.bind, Except.bind, hz]
  · intro hz
    subst hz
    by_cases hq : isNoneOrZero a = true
    · simp [calcular_razao, keyE, ha, he, Bind.bind, Except.bind, hq]
    · simp [calcular_razao, keyE, ha, he, Bind.bind, Except.bind, hq]
  · intro hz hen
    cases a with
    | null => simp [isNoneOrZero] at hz
    | int n =>
      have hn : ¬ n = 0 := by simpa [isNoneOrZero] using hz
      cases e with
      | null => exact absurd rfl hen
      | int m =>
        refine ⟨pfOfInt n, pfOfInt m, rfl, rfl, ?_⟩
        simp [calcular_razao, keyE, ha, he, Bind.bind, Except.bind, isNoneOrZero, hn,
          pyDivE, valToFloat?, pfOfInt]
      | num qe =>
        refine ⟨pfOfInt n, qe, rfl, rfl, ?_⟩
        simp [calcular_razao, keyE, ha, he, Bind.bind, Except.bind, isNoneOrZero, hn,
          pyDivE, valToFloat?, pfOfInt]
      | bool b => simp [isNumOrNullV] at het
      | str s => simp [isNumOrNullV] at het
      | date d => simp [isNumOrNullV] at het
      | list xs => simp [isNumOrNullV] at het
      | dict kvs => simp [isNumOrNullV] at het
    | num qa =>
      have hn : ¬ qa.n = 0 := by simpa [isNoneOrZero] using hz
      cases e with
      | null => exact absurd rfl hen
      | int m =>
        refine ⟨qa, pfOfInt m, rfl, rfl, ?_⟩
        simp [calcular_razao, keyE, ha, he, Bind.bind, Except.bind, isNoneOrZero, hn,
          pyDivE, valToFloat?, pfOfInt]
      | num qe =>
        refine ⟨qa, qe, rfl, rfl, ?_⟩
        simp [calcular_razao, keyE, ha, he, Bind.bind, Except.bind, isNoneOrZero, hn,
          pyDivE, valToFloat?, pfOfInt]
      | bool b => simp [isNumOrNullV] at het
      | str s => simp [isNumOrNullV] at het
      | date d => simp [isNumOrNullV] at het
      | list xs => simp [isNumOrNullV] at het
      | dict kvs => simp [isNumOrNullV] at het
    | bool b => simp [isNumOrNullV] at hat
    | str s => simp [isNumOrNullV] at hat
    | date d => simp [isNumOrNullV] at hat
    | list xs => simp [isNumOrNullV] at hat
    | dict kvs => simp [isNumOrNullV] at hat

/-- C4 witness row: the accumulated value is the integer 200
(exercising the integer-represented denominator), the estimate the
float 500.0. -/
def c4W_row : Row :=
  [("valorAcumuladoProximoConcurso", Value.int 200),
   ("valorEstimadoProximoConcurso", Value.num ⟨500, 1⟩)]

/-- C4 witness: the theorem applied at the concrete row, giving the
quotient 500/200 = 2.5 for an integer-typed denominator cell. -/
theorem c4_witness :
    ((Value.int 200 = Value.null ∨ Value.int 200 = Value.int 0 ∨
        (∃ qa, Value.int 200 = Value.num qa ∧ qa.n = 0)) ↔
      isNoneOrZero (Value.int 200) = true) ∧
    (isNoneOrZero (Value.int 200) = true →
      calcular_razao c4W_row = Except.ok Value.null) ∧
    (Value.num ⟨500, 1⟩ = Value.null → calcular_razao c4W_row = Except.ok Value.null) ∧
    (isNoneOrZero (Value.int 200) = false → Value.num ⟨500, 1⟩ ≠ Value.null →
      ∃ qa qe, valToFloat? (Value.int 200) = some qa ∧
        valToFloat? (Value.num ⟨500, 1⟩) = some qe ∧
        calcular_razao c4W_row = Except.ok (Value.num (pfDiv qe qa))) :=
  c4_razao_cases c4W_row (Value.int 200) (Value.num ⟨500, 1⟩)
    (by decide) (by decide) (by decide) (by decide)

/-- C3 witness input: a timemania batch carrying one of its drop-set
columns (`mesSorte`) while the other two are absent. -/
def c3W_row : Row :=
  [("loteria", Value.str "timemania"), ("concurso", Value.int 1),
   ("mesSorte", Value.str "Janeiro"), ("dezenas", vlist [Value.int 3])]

/-- C3 witness: the theorem applied at the concrete one-row timemania
batch. -/
theorem c3_witness :
    ∃ C, drop_colunas_por_loteria [c3W_row] = Except.ok C ∧ C.length = [c3W_row].length ∧
      (∀ i r, [c3W_row].get? i = some r → ∃ r2, C.get? i = some r2 ∧
        (∀ c ∈ dropSetFor (pyLower (pyStr (Value.str "timemania"))), rlookup c r2 = none) ∧
        (∀ c, c ∉ dropSetFor (pyLower (pyStr (Value.str "timemania"))) →
          rlookup c r2 = rlookup c r)) ∧
      dropSetFor "megasena" = ["timeCoracao", "mesSorte", "trevos"] ∧
      dropSetFor "lotofacil" = ["timeCoracao", "mesSorte", "trevos"] ∧
      dropSetFor "maismilionaria" = ["timeCoracao", "mesSorte"] ∧
      dropSetFor "timemania" = ["mesSorte", "trevos"] ∧
      dropSetFor "diadesorte" = ["timeCoracao", "trevos"] ∧
      (∀ s, s ∉ ["megasena", "lotofacil", "maismilionaria", "timemania", "diadesorte"] →
        dropSetFor s = []) :=
  c3_drop_exact [c3W_row] c3W_row [] (Value.str "timemania") rfl (by decide)

/-- C6: in the prize-tier expansion, whenever a row's
`total_ganhadores` is the float zero (the row-wise sum of winner
counts, with missing counts skipped) or missing, `media_premio_real`
is missing — and the division operator itself (`pandasDiv`) is a total
function that yields missing on a zero or missing denominator, so the
`total_pago_premios / total_ganhadores` step can never raise. -/
theorem c6_media_zero_safe (df out : DataFrame)
    (h : aplicar_expansao_premiacoes df = Except.ok out) :
    (∀ r ∈ out,
      (∀ q, rlookup "total_ganhadores" r = some (Value.num q) → q.n = 0 →
        rlookup "media_premio_real" r = some Value.null) ∧
      (rlookup "total_ganhadores" r = some Value.null →
        rlookup "media_premio_real" r = some Value.null)) ∧
    (∀ p q, q.n = 0 → pandasDiv p (Value.num q) = Value.null) ∧
    (∀ p, pandasDiv p Value.null = Value.null) := by
  refine ⟨?_, ?_, ?_⟩
  · unfold aplicar_expansao_premiacoes at h
    cases h1 : mapColE "premiacoes" reparsePremiacoes df with
    | error e => rw [h1] at h; simp [Bind.bind, Except.bind] at h
    | ok dfp =>
      rw [h1] at h
      simp only [Bind.bind, Except.bind] at h
      unfold expandir_e_concatenar_premiacoes at h
      simp only [Bind.bind, Except.bind] at h
      cases h2 : (dfp.map (fun r => (rlookup "premiacoes" r).getD Value.null)).mapM
          expandir_premiacoes_loteria with
      | error e => rw [h2] at h; cases h
      | ok premRows =>
        rw [h2] at h
        simp only [Pure.pure, Except.pure] at h
        injection h with h3
        intro r hr
        rw [← h3] at hr
        obtain ⟨r4, hr4, hrr⟩ := List.mem_map.mp hr
        subst hrr
        have hmedia : rlookup "media_premio_real"
            (rset "media_premio_real"
              (pandasDiv ((rlookup "total_pago_premios" r4).getD Value.null)
                ((rlookup "total_ganhadores" r4).getD Value.null)) r4) =
            some (pandasDiv ((rlookup "total_pago_premios" r4).getD Value.null)
              ((rlookup "total_ganhadores" r4).getD Value.null)) :=
          rlookup_rset_self _ _ _
        have htg : rlookup "total_ganhadores"
            (rset "media_premio_real"
              (pandasDiv ((rlookup "total_pago_premios" r4).getD Value.null)
                ((rlookup "total_ganhadores" r4).getD Value.null)) r4) =
            rlookup "total_ganhadores" r4 :=
          rlookup_rset_ne _ _ _ _ (by decide)
        constructor
        · intro q hq hz
          rw [htg] at hq
          rw [hmedia]
          cases htp : (rlookup "total_pago_premios" r4).getD Value.null <;>
            simp [pandasDiv, valToFloat?, hq, hz, htp]
        · intro hq
          rw [htg] at hq
          rw [hmedia]
          cases htp : (rlookup "total_pago_premios" r4).getD Value.null <;>
            simp [pandasDiv, valToFloat?, hq, htp]
  · intro p q hz
    cases p <;> simp [pandasDiv, valToFloat?, hz]
  · intro p
    cases p <;> simp [pandasDiv, valToFloat?]

/-- C6 witness input: one row whose single prize tier has zero
winners. -/
def c6W_df : DataFrame :=
  [[("premiacoes", vlist [vdict [("faixa", Value.int 1), ("ganhadores", Value.int 0),
      ("valorPremio", Value.num ⟨100, 1⟩)]])]]

/-- C6 witness output batch. -/
def c6W_out : DataFrame :=
  match aplicar_expansao_premiacoes c6W_df with
  | Except.ok o => o
  | Except.error _ => []

/-- C6 witness: the theorem applied at the concrete zero-winner batch. -/
theorem c6_witness :
    (∀ r ∈ c6W_out,
      (∀ q, rlookup "total_ganhadores" r = some (Value.num q) → q.n = 0 →
        rlookup "media_premio_real" r = some Value.null) ∧
      (rlookup "total_ganhadores" r = some Value.null →
        rlookup "media_premio_real" r = some Value.null)) ∧
    (∀ p q, q.n = 0 → pandasDiv p (Value.num q) = Value.null) ∧
    (∀ p, pandasDiv p Value.null = Value.null) :=
  c6_media_zero_safe c6W_df c6W_out (by decide)

/-- C5: persistence writes are keyed by the lower-cased first-row
`loteria` and are full-table replaces — after writing batch `df3` and
then batch `df1` for the same lottery, the relation holds exactly the
rows of `df1` — and the connection flag reports release on every path
(success, write fault, and pre-connection failure alike). -/
theorem c5_full_replace (df3 df1 : DataFrame) (db : SqliteDB) (v3 v1 : Value)
    (h3 : ilocFirst df3 "loteria" = Except.ok v3)
    (h1 : ilocFirst df1 "loteria" = Except.ok v1)
    (hsame : pyLower (pyStr v3) = pyLower (pyStr v1)) :
    (∃ db1 db2,
      salvar_sqlite df3 db true = (Except.ok db1, true) ∧
      salvar_sqlite df1 db1 true = (Except.ok db2, true) ∧
      tableRows db2 (pyLower (pyStr v1)) = some df1) ∧
    (∀ dfx dbx w, (salvar_sqlite dfx dbx w).2 = true) := by
  constructor
  · refine ⟨writeTableReplace db (pyLower (pyStr v3)) df3,
      writeTableReplace (writeTableReplace db (pyLower (pyStr v3)) df3)
        (pyLower (pyStr v1)) df1, ?_, ?_, ?_⟩
    · simp [salvar_sqlite, h3]
    · simp [salvar_sqlite, h1]
    · simp [tableRows, writeTableReplace]
  · intro dfx dbx w
    unfold salvar_sqlite
    cases hx : ilocFirst dfx "loteria" with
    | error e => rfl
    | ok v => cases w <;> rfl

/-- C5 witness: a 3-row megasena batch then a 1-row megasena batch
leave a 1-row relation. -/
def c5W_df3 : DataFrame :=
  [[("loteria", Value.str "megasena"), ("concurso", Value.int 1)],
   [("loteria", Value.str "megasena"), ("concurso", Value.int 2)],
   [("loteria", Value.str "megasena"), ("concurso", Value.int 3)]]

/-- C5 witness second batch (one row). -/
def c5W_df1 : DataFrame :=
  [[("loteria", Value.str "megasena"), ("concurso", Value.int 9)]]

/-- C5 witness: the theorem applied at the concrete batches, plus the
row count of the second batch. -/
theorem c5_witness :
    ((∃ db1 db2,
      salvar_sqlite c5W_df3 ⟨[]⟩ true = (Except.ok db1, true) ∧
      salvar_sqlite c5W_df1 db1 true = (Except.ok db2, true) ∧
      tableRows db2 (pyLower (pyStr (Value.str "megasena"))) = some c5W_df1) ∧
    (∀ dfx dbx w, (salvar_sqlite dfx dbx w).2 = true)) ∧ c5W_df1.length = 1 :=
  ⟨c5_full_replace c5W_df3 c5W_df1 ⟨[]⟩ (Value.str "megasena") (Value.str "megasena")
    (by decide) (by decide) rfl, by decide⟩

theorem etapa2_decomposed (df : DataFrame) :
    feature_engineering_etapa2 df =
      (feature_preconcat df).bind (fun d1 =>
        (expandir_e_concatenar_premiacoes d1).bind (fun d2 =>
          (processar_local_ganhadores d2).bind criar_features_numericas)) := by
  unfold feature_engineering_etapa2 feature_preconcat aplicar_expansao_premiacoes
  simp only [Bind.bind]
  cases criar_features_datas df with
  | error e => rfl
  | ok d1 =>
    simp only [Except.bind]
    cases expandir_dezenas d1 with
    | error e => rfl
    | ok d2 =>
      simp only [Except.bind]
      cases separar_local d2 with
      | error e => rfl
      | ok d3 =>
        simp only [Except.bind]
        cases mapColE "premiacoes" reparsePremiacoes d3 with
        | error e => rfl
        | ok d4 => rfl

/-- C9 amended: the heap profile of the three stages.  The cleaning
stage copies its input first, so the caller's object is untouched; the
persistence stage leaves the heap unchanged; the feature stage,
however, writes into the very object passed in up to the `pd.concat`
fork — afterwards the caller's cell holds the pre-concat table (date
features, `dezena_N` columns, venue split, re-parsed `premiacoes`),
while the stage returns a different object, the concat fork carrying
the full enriched table. -/
theorem c9_mutation_profile :
    (∀ (h : Heap) (r fresh : Nat) (h2 : Heap) (r2 : Nat), fresh ≠ r →
      data_cleaning_etapa1_ref h r fresh = Except.ok (h2, r2) →
      heapGet h2 r = heapGet h r) ∧
    (∀ (h : Heap) (r : Nat) (db : SqliteDB) (w : Bool),
      (salvar_no_sqlite_etapa3_ref h r db w).2.2 = h) ∧
    (∀ (h : Heap) (r fresh : Nat) (h2 : Heap) (r2 : Nat), fresh ≠ r →
      feature_engineering_etapa2_ref h r fresh = Except.ok (h2, r2) →
      r2 = fresh ∧ r2 ≠ r ∧
      (∃ dpre, feature_preconcat (heapGet h r) = Except.ok dpre ∧ heapGet h2 r = dpre) ∧
      (∃ out, feature_engineering_etapa2 (heapGet h r) = Except.ok out ∧
        heapGet h2 r2 = out)) := by
  refine ⟨?_, ?_, ?_⟩
  · intro h r fresh h2 r2 hfr hok
    unfold data_cleaning_etapa1_ref at hok
    cases hc : data_cleaning_etapa1 (heapGet h r) with
    | error e => rw [hc] at hok; cases hok
    | ok out =>
      rw [hc] at hok
      injection hok with hpair
      have h2eq : h2 = (fresh, out) :: h := (congrArg Prod.fst hpair).symm
      rw [h2eq]
      simp [heapGet, hfr]
  · intro h r db w
    rfl
  · intro h r fresh h2 r2 hfr hok
    unfold feature_engineering_etapa2_ref at hok
    simp only [Bind.bind, Except.bind] at hok
    cases hpre : feature_preconcat (heapGet h r) with
    | error e => rw [hpre] at hok; cases hok
    | ok dpre =>
      rw [hpre] at hok
      simp only [Except.bind] at hok
      cases hexp : expandir_e_concatenar_premiacoes dpre with
      | error e => rw [hexp] at hok; cases hok
      | ok dfork =>
        rw [hexp] at hok
        simp only [Except.bind] at hok
        cases hloc : processar_local_ganhadores dfork with
        | error e => rw [hloc] at hok; cases hok
        | ok d5 =>
          rw [hloc] at hok
          simp only [Except.bind] at hok
          cases hnum : criar_features_numericas d5 with
          | error e => rw [hnum] at hok; cases hok
          | ok out =>
            rw [hnum] at hok
            simp only [Except.bind] at hok
            injection hok with hpair
            have h2eq : h2 = (fresh, out) :: (r, dpre) :: h := (congrArg Prod.fst hpair).symm
            have r2eq : r2 = fresh := (congrArg Prod.snd hpair).symm
            subst h2eq
            subst r2eq
            refine ⟨rfl, hfr, ⟨dpre, rfl, ?_⟩, ⟨out, ?_, ?_⟩⟩
            · simp [heapGet, hfr]
            · rw [etapa2_decomposed]
              simp [Except.bind, hpre, hexp, hloc, hnum]
            · simp [heapGet]

/-- C9 concrete batch: one cleaned megasena row, a valid input to both
the cleaning and the feature stage. -/
def c9_input : DataFrame := [[
  ("loteria", Value.str "megasena"),
  ("concurso", Value.int 100),
  ("data", Value.date ⟨2020, 1, 1⟩),
  ("proximoConcurso", Value.date ⟨2020, 1, 4⟩),
  ("dezenas", vlist [Value.int 10, Value.int 22, Value.int 35, Value.int 41,
    Value.int 50, Value.int 58]),
  ("premiacoes", vlist [vdict [("faixa", Value.int 1), ("ganhadores", Value.int 0),
      ("valorPremio", Value.num ⟨0, 1⟩)],
    vdict [("faixa", Value.int 2), ("ganhadores", Value.int 5),
      ("valorPremio", Value.num ⟨1234, 1⟩)]]),
  ("localGanhadores", vlist []),
  ("valorArrecadado", Value.num ⟨1000, 1⟩),
  ("valorAcumuladoProximoConcurso", Value.num ⟨200, 1⟩),
  ("valorEstimadoProximoConcurso", Value.num ⟨500, 1⟩)]]

/-- C9 counterexample: the feature stage is not a pure transformation
of a caller-held table — run on the object at reference 0 (with 1 the
fresh object created by the `pd.concat` fork), it succeeds and the
caller's object afterwards differs from the table that was passed in:
the pre-concat derivations (date features, `dezena_N`, venue split,
`premiacoes` re-parse) were inserted in place.  This falsifies "no
stage mutates the table value passed in by its caller, so a caller
holding the pre-stage batch still observes the old shape". -/
theorem c9_counterexample :
    (feature_engineering_etapa2_ref [(0, c9_input)] 0 1).toOption ≠ none ∧
    heapGet (((feature_engineering_etapa2_ref [(0, c9_input)] 0 1).toOption.getD ([], 0)).1) 0 ≠
      heapGet [(0, c9_input)] 0 :=
  ⟨by decide, by decide⟩

/-- C9 witness: the amended theorem applied at the concrete batch —
cleaning leaves the caller's object intact, persistence leaves the
heap unchanged, and the feature stage returns the fresh fork reference
holding the full output while the caller's object ends at the
pre-concat table. -/
theorem c9_witness :
    heapGet ((data_cleaning_etapa1_ref [(0, c9_input)] 0 1).toOption.getD ([], 0)).1 0 =
      heapGet [(0, c9_input)] 0 ∧
    (salvar_no_sqlite_etapa3_ref [(0, c9_input)] 0 ⟨[]⟩ true).2.2 = [(0, c9_input)] ∧
    (((feature_engineering_etapa2_ref [(0, c9_input)] 0 1).toOption.getD ([], 0)).2 = 1 ∧
      ((feature_engineering_etapa2_ref [(0, c9_input)] 0 1).toOption.getD ([], 0)).2 ≠ 0 ∧
      (∃ dpre, feature_preconcat (heapGet [(0, c9_input)] 0) = Except.ok dpre ∧
        heapGet
          (((feature_engineering_etapa2_ref [(0, c9_input)] 0 1).toOption.getD ([], 0)).1) 0 =
          dpre) ∧
      (∃ out, feature_engineering_etapa2 (heapGet [(0, c9_input)] 0) = Except.ok out ∧
        heapGet
          (((feature_engineering_etapa2_ref [(0, c9_input)] 0 1).toOption.getD ([], 0)).1)
          (((feature_engineering_etapa2_ref [(0, c9_input)] 0 1).toOption.getD ([], 0)).2) =
          out)) := by
  obtain ⟨hc, hp, hf⟩ := c9_mutation_profile
  refine ⟨?_, hp [(0, c9_input)] 0 ⟨[]⟩ true, ?_⟩
  · exact hc [(0, c9_input)] 0 1
      ((data_cleaning_etapa1_ref [(0, c9_input)] 0 1).toOption.getD ([], 0)).1
      ((data_cleaning_etapa1_ref [(0, c9_input)] 0 1).toOption.getD ([], 0)).2
      (by decide) (by decide)
  · exact hf [(0, c9_input)] 0 1
      (((feature_engineering_etapa2_ref [(0, c9_input)] 0 1).toOption.getD ([], 0))).1
      (((feature_engineering_etapa2_ref [(0, c9_input)] 0 1).toOption.getD ([], 0))).2
      (by decide) (by decide)

/-- C1: in every batch the cleaning stage outputs, each surviving
row's `dezenas` is a list of the same length as the first (output)
row's `dezenas` list, and when the row's `loteria` selects one of the
five known ranges, every element coerced with `int(...)` lies in that
closed range — the table being megasena 1–60, lotofacil 1–25,
timemania 1–80, diadesorte 1–31, maismilionaria 1–50 — while a row
whose lottery is not one of those five always passes the range check
(so no row is ever dropped by it). -/
theorem c1_surviving_dezenas (B C : DataFrame) (h : data_cleaning_etapa1 B = Except.ok C) :
    (∀ r ∈ C, ∃ xs : VList, rlookup "dezenas" r = some (Value.list xs) ∧
      (∀ r0, C.head? = some r0 → ∃ ys : VList, rlookup "dezenas" r0 = some (Value.list ys) ∧
        xs.toList.length = ys.toList.length) ∧
      (∀ lo hi, intervalFor ((rlookup "loteria" r).getD Value.null) = some (lo, hi) →
        ∀ v ∈ xs.toList, ∃ n, pyInt v = some n ∧ lo ≤ n ∧ n ≤ hi)) ∧
    (∀ lista lot, intervalFor lot = none → dezenas_validas lista lot = true) ∧
    intervalFor (Value.str "megasena") = some (1, 60) ∧
    intervalFor (Value.str "lotofacil") = some (1, 25) ∧
    intervalFor (Value.str "timemania") = some (1, 80) ∧
    intervalFor (Value.str "diadesorte") = some (1, 31) ∧
    intervalFor (Value.str "maismilionaria") = some (1, 50) := by
  obtain ⟨d1, d2, hdrop, htrat, hval⟩ := clean_split h
  obtain ⟨expected, hfacts⟩ := validar_facts hval
  refine ⟨?_, ?_, by decide, by decide, by decide, by decide, by decide⟩
  · intro r hr
    obtain ⟨hlen, hrange⟩ := hfacts r hr
    cases hd : rlookup "dezenas" r with
    | none => rw [lenPred, hd] at hlen; cases hlen
    | some v =>
      cases v with
      | list xs =>
        rw [lenPred, hd] at hlen
        have hxlen : xs.toList.length = expected := of_decide_eq_true hlen
        refine ⟨xs, rfl, ?_, ?_⟩
        · intro r0 hr0
          have hr0mem : r0 ∈ C := List.mem_of_mem_head? hr0
          obtain ⟨hlen0, _⟩ := hfacts r0 hr0mem
          cases hd0 : rlookup "dezenas" r0 with
          | none => rw [lenPred, hd0] at hlen0; cases hlen0
          | some v0 =>
            cases v0 with
            | list ys =>
              rw [lenPred, hd0] at hlen0
              have hylen : ys.toList.length = expected := of_decide_eq_true hlen0
              exact ⟨ys, rfl, by rw [hxlen, hylen]⟩
            | null => rw [lenPred, hd0] at hlen0; cases hlen0
            | bool b => rw [lenPred, hd0] at hlen0; cases hlen0
            | int n => rw [lenPred, hd0] at hlen0; cases hlen0
            | num q => rw [lenPred, hd0] at hlen0; cases hlen0
            | str s => rw [lenPred, hd0] at hlen0; cases hlen0
            | date d => rw [lenPred, hd0] at hlen0; cases hlen0
            | dict kvs => rw [lenPred, hd0] at hlen0; cases hlen0
        · intro lo hi hint v hv
          cases hlot : rlookup "loteria" r with
          | none => rw [rangePredE, hlot] at hrange; cases hrange
          | some lot =>
            rw [rangePredE, hlot] at hrange
            injection hrange with hvalid
            rw [hlot] at hint
            simp only [Option.getD] at hint
            rw [dezenas_validas, hint, hd] at hvalid
            simp only [Option.getD] at hvalid
            have hall := (List.all_eq_true.mp hvalid) v hv
            cases hn : pyInt v with
            | none => rw [hn] at hall; cases hall
            | some n =>
              rw [hn] at hall
              have := Bool.and_eq_true_iff.mp hall
              exact ⟨n, rfl, of_decide_eq_true this.1, of_decide_eq_true this.2⟩
      | null => rw [lenPred, hd] at hlen; cases hlen
      | bool b => rw [lenPred, hd] at hlen; cases hlen
      | int n => rw [lenPred, hd] at hlen; cases hlen
      | num q => rw [lenPred, hd] at hlen; cases hlen
      | str s => rw [lenPred, hd] at hlen; cases hlen
      | date d => rw [lenPred, hd] at hlen; cases hlen
      | dict kvs => rw [lenPred, hd] at hlen; cases hlen
  · intro lista lot hnone
    rw [dezenas_validas, hnone]

/-- C1 witness: the theorem applied at a concrete megasena batch that
cleans successfully to itself. -/
theorem c1_witness :
    (∀ r ∈ c9_input, ∃ xs : VList, rlookup "dezenas" r = some (Value.list xs) ∧
      (∀ r0, c9_input.head? = some r0 → ∃ ys : VList,
        rlookup "dezenas" r0 = some (Value.list ys) ∧
        xs.toList.length = ys.toList.length) ∧
      (∀ lo hi, intervalFor ((rlookup "loteria" r).getD Value.null) = some (lo, hi) →
        ∀ v ∈ xs.toList, ∃ n, pyInt v = some n ∧ lo ≤ n ∧ n ≤ hi)) ∧
    (∀ lista lot, intervalFor lot = none → dezenas_validas lista lot = true) ∧
    intervalFor (Value.str "megasena") = some (1, 60) ∧
    intervalFor (Value.str "lotofacil") = some (1, 25) ∧
    intervalFor (Value.str "timemania") = some (1, 80) ∧
    intervalFor (Value.str "diadesorte") = some (1, 31) ∧
    intervalFor (Value.str "maismilionaria") = some (1, 50) :=
  c1_surviving_dezenas c9_input c9_input (by decide)

theorem rmapValE_ok_facts {k : String} {f : Value → Except String Value} :
    ∀ {r r2 : Row}, rmapValE k f r = Except.ok r2 →
      (∀ k2, k2 ≠ k → rlookup k2 r2 = rlookup k2 r) ∧
      (match rlookup k r with
       | some v => ∃ w, f v = Except.ok w ∧ rlookup k r2 = some w
       | none => r2 = r) := by
  intro r
  induction r with
  | nil =>
    intro r2 h
    injection h with h2
    subst h2
    exact ⟨fun _ _ => rfl, rfl⟩
  | cons kv rest ih =>
    intro r2 h
    obtain ⟨k2, v2⟩ := kv
    by_cases hk : k2 = k
    · subst hk
      simp only [rmapValE, if_pos rfl] at h
      cases hf : f v2 with
      | error e => rw [hf] at h; cases h
      | ok v3 =>
        rw [hf] at h
        injection h with h2
        subst h2
        constructor
        · intro k3 hk3
          have hne : ¬ k2 = k3 := fun he => hk3 he.symm
          simp [rlookup, hne]
        · simp only [rlookup, if_pos rfl]
          exact ⟨v3, hf, rfl⟩
    · simp only [rmapValE, if_neg hk] at h
      cases hrest : rmapValE k f rest with
      | error e => rw [hrest] at h; cases h
      | ok rest2 =>
        rw [hrest] at h
        injection h with h2
        subst h2
        obtain ⟨hne, hmain⟩ := ih hrest
        constructor
        · intro k3 hk3
          by_cases hk23 : k2 = k3
          · simp [rlookup, hk23]
          · simp [rlookup, hk23, hne k3 hk3]
        · simp only [rlookup, if_neg hk]
          cases hl : rlookup k rest with
          | some v =>
            simp only [hl] at hmain
            obtain ⟨w, hw, hlw⟩ := hmain
            exact ⟨w, hw, by simp [rlookup, hk, hlw]⟩
          | none =>
            simp only [hl] at hmain
            rw [hmain]

theorem mapM_ok_facts {α β : Type} (g : α → Except String β) :
    ∀ {l : List α} {out : List β}, l.mapM g = Except.ok out →
      out.length = l.length ∧
      ∀ i x, l.get? i = some x → ∃ y, out.get? i = some y ∧ g x = Except.ok y := by
  intro l
  induction l with
  | nil =>
    intro out h
    simp only [List.mapM_nil, Pure.pure, Except.pure] at h
    injection h with h2
    subst h2
    exact ⟨rfl, fun i x hx => by simp at hx⟩
  | cons x xs ih =>
    intro out h
    rw [List.mapM_cons] at h
    cases hg : g x with
    | error e => rw [hg] at h; simp [Bind.bind, Except.bind] at h
    | ok y =>
      rw [hg] at h
      simp only [Bind.bind, Except.bind] at h
      cases hgs : xs.mapM g with
      | error e => rw [hgs] at h; cases h
      | ok ys =>
        rw [hgs] at h
        simp only [Pure.pure, Except.pure] at h
        injection h with h2
        subst h2
        obtain ⟨hlen, hidx⟩ := ih hgs
        refine ⟨by simp [hlen], ?_⟩
        intro i z hz
        cases i with
        | zero =>
          simp only [List.get?] at hz ⊢
          injection hz with hz2
          subst hz2
          exact ⟨y, rfl, hg⟩
        | succ n =>
          simp only [List.get?] at hz ⊢
          exact hidx n z hz

theorem jsonFold_facts :
    ∀ (cols : List String), cols.Nodup →
    ∀ (d out : DataFrame), cols.foldlM jsonColStep d = Except.ok out →
      out.length = d.length ∧
      ∀ i r, d.get? i = some r → ∃ r2, out.get? i = some r2 ∧
        (∀ c, c ∉ cols → rlookup c r2 = rlookup c r) ∧
        (∀ c ∈ cols,
          if (d.map (fun row => (rlookup c row).getD Value.null)).any isListV
          then (match rlookup c r with
                | some v => ∃ w, jsonDumpsE v = Except.ok w ∧ rlookup c r2 = some w
                | none => rlookup c r2 = none)
          else rlookup c r2 = rlookup c r) := by
  intro cols
  induction cols with
  | nil =>
    intro _ d out h
    simp only [List.foldlM, Pure.pure, Except.pure] at h
    injection h with h2
    subst h2
    refine ⟨rfl, fun i r hi => ⟨r, hi, fun _ _ => rfl, fun c hc => by simp at hc⟩⟩
  | cons c0 cs ih =>
    intro hn d out h
    obtain ⟨hc0, hncs⟩ := List.nodup_cons.mp hn
    simp only [List.foldlM] at h
    cases hstep : jsonColStep d c0 with
    | error e => rw [hstep] at h; simp [Bind.bind, Except.bind] at h
    | ok d1 =>
      rw [hstep] at h
      simp only [Bind.bind, Except.bind] at h
      obtain ⟨hlen1, hidx1⟩ := ih hncs d1 out h
      unfold jsonColStep at hstep
      cases htrig : (d.map (fun row => (rlookup c0 row).getD Value.null)).any isListV with
      | false =>
        rw [htrig] at hstep
        simp only [Bool.false_eq_true, if_false] at hstep
        injection hstep with hd1
        subst hd1
        refine ⟨hlen1, ?_⟩
        intro i r hi
        obtain ⟨r2, ho, hout, hin⟩ := hidx1 i r hi
        refine ⟨r2, ho, ?_, ?_⟩
        · intro c hc
          exact hout c (fun hmem => hc (List.mem_cons_of_mem c0 hmem))
        · intro c hc
          rcases List.mem_cons.mp hc with hceq | hcmem
          · subst hceq
            rw [htrig]
            simp only [Bool.false_eq_true, if_false]
            exact hout c hc0
          · exact hin c hcmem
      | true =>
        rw [htrig] at hstep
        simp only [if_true] at hstep
        obtain ⟨hlen0, hidx0⟩ := mapM_ok_facts (rmapValE c0 jsonDumpsE) hstep
        have hcolpres : ∀ c, c ≠ c0 →
            (d1.map (fun row => (rlookup c row).getD Value.null)) =
            (d.map (fun row => (rlookup c row).getD Value.null)) := by
          intro c hc
          apply List.ext_get?
          intro n
          rw [List.get?_map, List.get?_map]
          cases hd : d.get? n with
          | none =>
            have hd1n : d1.get? n = none := by
              rw [List.get?_eq_none] at hd ⊢
              rw [hlen0]
              exact hd
            rw [hd1n]
          | some rr =>
            obtain ⟨r1, hr1, hstep1⟩ := hidx0 n rr hd
            rw [hr1]
            obtain ⟨hne, _⟩ := rmapValE_ok_facts hstep1
            simp [hne c hc]
        refine ⟨by rw [hlen1, hlen0], ?_⟩
        intro i r hi
        obtain ⟨r1, hr1, hstep1⟩ := hidx0 i r hi
        obtain ⟨r2, ho, hout, hin⟩ := hidx1 i r1 hr1
        obtain ⟨hne1, hmain1⟩ := rmapValE_ok_facts hstep1
        refine ⟨r2, ho, ?_, ?_⟩
        · intro c hc
          have hcc0 : c ≠ c0 := fun he => hc (he ▸ List.mem_cons_self c0 cs)
          have hccs : c ∉ cs := fun hmem => hc (List.mem_cons_of_mem c0 hmem)
          rw [hout c hccs, hne1 c hcc0]
        · intro c hc
          rcases List.mem_cons.mp hc with hceq | hcmem
          · subst hceq
            rw [htrig]
            simp only [if_true]
            cases hl : rlookup c r with
            | some v =>
              simp only [hl] at hmain1
              obtain ⟨w, hw, hlw⟩ := hmain1
              exact ⟨w, hw, by rw [hout c hc0, hlw]⟩
            | none =>
              simp only [hl] at hmain1
              rw [hout c hc0, hmain1, hl]
          · have hcc0 : c ≠ c0 := fun he => hc0 (he ▸ hcmem)
            have := hin c hcmem
            rw [hcolpres c hcc0] at this
            cases htc : (d.map (fun row => (rlookup c row).getD Value.null)).any isListV with
            | false =>
              rw [htc] at this
              simp only [Bool.false_eq_true, if_false] at this ⊢
              rw [this, hne1 c hcc0]
            | true =>
              rw [htc] at this
              simp only [if_true] at this ⊢
              rw [hne1 c hcc0] at this
              exact this

/-- C10: in the persistence stage's list-to-text encoding, a column is
serialized exactly when at least one of its values is a Python list;
a serialized column has `json.dumps` applied to every cell, including
non-list cells — in particular a missing value in a list-bearing
column is stored as the serialized text `NaN`, not as a native null —
while a column containing no list passes through completely unchanged.
(Column names are assumed distinct, as pandas frames built by this
pipeline have them.) -/
theorem c10_list_serialization (df out : DataFrame) (hn : (colNames df).Nodup)
    (h : listas_para_json df = Except.ok out) :
    out.length = df.length ∧
    (∀ c ∈ colNames df, ∀ i r, df.get? i = some r → ∃ r2, out.get? i = some r2 ∧
      (if (df.map (fun row => (rlookup c row).getD Value.null)).any isListV
       then (match rlookup c r with
             | some v => ∃ w, jsonDumpsE v = Except.ok w ∧ rlookup c r2 = some w
             | none => rlookup c r2 = none)
       else rlookup c r2 = rlookup c r)) ∧
    jsonDumpsE Value.null = Except.ok (Value.str "NaN") := by
  obtain ⟨hlen, hidx⟩ := jsonFold_facts (colNames df) hn df out h
  refine ⟨hlen, ?_, rfl⟩
  intro c hc i r hi
  obtain ⟨r2, ho, _, hin⟩ := hidx i r hi
  exact ⟨r2, ho, hin c hc⟩

/-- C10 witness input: column `a` holds a list in the first row and a
missing value in the second; column `b` holds no list. -/
def c10W_df : DataFrame :=
  [[("a", vlist [Value.int 1]), ("b", Value.int 7)],
   [("a", Value.null), ("b", Value.int 8)]]

/-- C10 witness output. -/
def c10W_out : DataFrame :=
  match listas_para_json c10W_df with
  | Except.ok o => o
  | Except.error _ => []

/-- C10 witness: the theorem applied at the concrete frame, plus the
decisive cell values — the missing value of the list-bearing column
became the text `NaN` while the list-free column kept its cells. -/
theorem c10_witness :
    (c10W_out.length = c10W_df.length ∧
    (∀ c ∈ colNames c10W_df, ∀ i r, c10W_df.get? i = some r → ∃ r2, c10W_out.get? i = some r2 ∧
      (if (c10W_df.map (fun row => (rlookup c row).getD Value.null)).any isListV
       then (match rlookup c r with
             | some v => ∃ w, jsonDumpsE v = Except.ok w ∧ rlookup c r2 = some w
             | none => rlookup c r2 = none)
       else rlookup c r2 = rlookup c r)) ∧
    jsonDumpsE Value.null = Except.ok (Value.str "NaN")) ∧
    (c10W_out.get? 1).bind (rlookup "a") = some (Value.str "NaN") ∧
    (c10W_out.get? 1).bind (rlookup "b") = some (Value.int 8) ∧
    (c10W_out.get? 0).bind (rlookup "a") = some (Value.str "[1]") :=
  ⟨c10_list_serialization c10W_df c10W_out (by decide) (by decide),
    by decide, by decide, by decide⟩

/-- C7 counterexample raw batch: two rows with distinct unparseable
`concurso` strings (so the first pass deduplicates nothing), valid
dates and valid megasena draws. -/
def c7X_raw : DataFrame :=
  [[("loteria", Value.str "megasena"), ("concurso", Value.str "abc"),
    ("data", Value.str "01/01/2020"), ("proximoConcurso", Value.str "04/01/2020"),
    ("dezenas", vlist [Value.int 1, Value.int 2, Value.int 3, Value.int 4,
      Value.int 5, Value.int 6])],
   [("loteria", Value.str "megasena"), ("concurso", Value.str "def"),
    ("data", Value.str "02/01/2020"), ("proximoConcurso", Value.str "05/01/2020"),
    ("dezenas", vlist [Value.int 7, Value.int 8, Value.int 9, Value.int 10,
      Value.int 11, Value.int 12])]]

/-- The batch the cleaning stage produces from `c7X_raw`: both rows
survive, with `concurso` coerced to missing in each (the strings are
unparseable). -/
def c7X_cleaned : DataFrame :=
  [[("loteria", Value.str "megasena"), ("concurso", Value.null),
    ("data", Value.date ⟨2020, 1, 1⟩), ("proximoConcurso", Value.date ⟨2020, 1, 4⟩),
    ("dezenas", vlist [Value.int 1, Value.int 2, Value.int 3, Value.int 4,
      Value.int 5, Value.int 6])],
   [("loteria", Value.str "megasena"), ("concurso", Value.null),
    ("data", Value.date ⟨2020, 1, 2⟩), ("proximoConcurso", Value.date ⟨2020, 1, 5⟩),
    ("dezenas", vlist [Value.int 7, Value.int 8, Value.int 9, Value.int 10,
      Value.int 11, Value.int 12])]]

/-- C7 counterexample: the cleaning stage produces `c7X_cleaned` from
`c7X_raw`, yet running the stage a second time on `c7X_cleaned` does
not return it unchanged — it raises.  Deduplication keys on `concurso`
and (like pandas `duplicated`) treats missing values as equal, so the
two null-`concurso` rows trigger the dedup branch; `drop_duplicates`
keeps the last row together with its index label 1 and drops label 0,
and `validar_dezenas` then reads `df.loc[0, "dezenas"]`
(`data_cleaning.py:159`), which raises `KeyError: 0`.  The claim's
parenthetical is also false on this output: a produced batch can hold
duplicate (null) `concurso` values, because deduplication runs before
the coercion that creates the nulls (`data_cleaning.py:51` versus
`:55`). -/
theorem c7_counterexample :
    data_cleaning_etapa1 c7X_raw = Except.ok c7X_cleaned ∧
    data_cleaning_etapa1 c7X_cleaned = Except.error "KeyError: 0" :=
  ⟨by decide, by decide⟩

theorem to_numeric_fix {v : Value} (h : isNumOrNullV v = true) : to_numeric_coerce v = v := by
  cases v <;> simp_all [isNumOrNullV, to_numeric_coerce]

theorem toInt64_to_numeric_fix {v : Value} (h : isIntOrNullV v = true) :
    toInt64E (to_numeric_coerce v) = Except.ok v := by
  cases v <;> simp_all [isIntOrNullV, to_numeric_coerce, toInt64E]

theorem to_datetime_fix {v : Value} (h : isDateOrNullV v = true) :
    to_datetime_mixed v = Except.ok v := by
  cases v <;> simp_all [isDateOrNullV, to_datetime_mixed]

theorem astype_boolean_fix {v : Value} (h : isBoolOrNullV v = true) :
    astype_boolean v = Except.ok v := by
  cases v <;> simp_all [isBoolOrNullV, astype_boolean]

theorem normalizar_lista_fix {v : Value} (h : isListOrNullV v = true) :
    normalizar_lista v = v := by
  cases v <;> simp_all [isListOrNullV, normalizar_lista]

theorem mapColEL_fix {c : String} {f : Value → Except String Value} {L : LFrame}
    (hhead : hasCol (lrows L) c = true)
    (hrows : ∀ p ∈ L, ∀ v, rlookup c p.2 = some v → f v = Except.ok v) :
    mapColEL c f L = Except.ok L := by
  unfold mapColEL
  rw [if_pos hhead]
  apply mapM_ok_id
  intro p hp
  obtain ⟨i, r⟩ := p
  show Except.map (fun r2 => (i, r2)) (rmapValE c f r) = Except.ok (i, r)
  have hfix : rmapValE c f r = Except.ok r := by
    cases hl : rlookup c r with
    | none => exact rmapValE_absent c f r hl
    | some v => exact rmapValE_fixpoint c f r v hl (hrows (i, r) hp v hl)
  rw [hfix]
  rfl

theorem mapColPureL_fix {c : String} {f : Value → Value} {L : LFrame}
    (hrows : ∀ p ∈ L, ∀ v, rlookup c p.2 = some v → f v = v) :
    mapColPureL c f L = L := by
  unfold mapColPureL
  apply list_map_id_of_mem
  intro p hp
  obtain ⟨i, r⟩ := p
  show (i, rmapVal c f r) = (i, r)
  have hfix : rmapVal c f r = r := by
    cases hl : rlookup c r with
    | none => exact rmapVal_absent c f r hl
    | some v => exact rmapVal_fixpoint c f r v hl (hrows (i, r) hp v hl)
  rw [hfix]

theorem drop_fix {C : DataFrame} {r0 : Row} {rest : DataFrame} {v : Value}
    (hC : C = r0 :: rest) (hlot : rlookup "loteria" r0 = some v)
    (hdropped : ∀ r ∈ C, ∀ c ∈ dropSetFor (pyLower (pyStr v)), rlookup c r = none) :
    drop_colunas_por_loteria C = Except.ok C := by
  subst hC
  simp only [drop_colunas_por_loteria, ilocFirst, hlot, Bind.bind, Except.bind]
  have : (r0 :: rest).map (rdropKeys (dropSetFor (pyLower (pyStr v)))) = r0 :: rest := by
    apply list_map_id_of_mem
    intro r hr
    exact rdropKeys_id _ r (fun c hc => hdropped r hr c hc)
  rw [this]

theorem tratar_fix {L : LFrame} (hne : L ≠ [])
    (hdup : anyDupKey ((lrows L).map concursoKey) = false)
    (hconcP : ∀ p ∈ L, (rlookup "concurso" p.2).isSome = true)
    (hconcT : ∀ p ∈ L, ∀ v, rlookup "concurso" p.2 = some v → isIntOrNullV v = true)
    (hdataH : hasCol (lrows L) "data" = true)
    (hdataT : ∀ p ∈ L, ∀ v, rlookup "data" p.2 = some v → isDateOrNullV v = true)
    (hproxH : hasCol (lrows L) "proximoConcurso" = true)
    (hproxT : ∀ p ∈ L, ∀ v, rlookup "proximoConcurso" p.2 = some v → isDateOrNullV v = true)
    (hmonT : ∀ p ∈ L, ∀ c ∈ cols_monetarias, ∀ v, rlookup c p.2 = some v →
      isNumOrNullV v = true)
    (hacuT : ∀ p ∈ L, ∀ v, rlookup "acumulou" p.2 = some v → isBoolOrNullV v = true) :
    tratar_tipos_e_colunas L = Except.ok L := by
  have hconcP2 : ∀ r ∈ lrows L, (rlookup "concurso" r).isSome = true := by
    intro r hr
    obtain ⟨p, hp, hpr⟩ := List.mem_map.mp hr
    exact hpr ▸ hconcP p hp
  have hconcH : hasCol (lrows L) "concurso" = true := by
    cases hc : L with
    | nil => exact absurd hc hne
    | cons ph rest =>
      subst hc
      exact hconcP ph (List.mem_cons_self ph rest)
  obtain ⟨vs, hvs⟩ := getColE_ok_of_present hconcP2
  have h1 : mapColEL "concurso" (fun v => toInt64E (to_numeric_coerce v)) L = Except.ok L :=
    mapColEL_fix hconcH (fun p hp v hv => toInt64_to_numeric_fix (hconcT p hp v hv))
  have h2 : mapColEL "data" to_datetime_mixed L = Except.ok L :=
    mapColEL_fix hdataH (fun p hp v hv => to_datetime_fix (hdataT p hp v hv))
  have h3 : mapColEL "proximoConcurso" to_datetime_mixed L = Except.ok L :=
    mapColEL_fix hproxH (fun p hp v hv => to_datetime_fix (hproxT p hp v hv))
  have h4 : cols_monetarias.foldl
      (fun d c => if hasCol (lrows d) c then mapColPureL c to_numeric_coerce d else d) L = L := by
    apply foldl_fixpoint
    intro c hc
    by_cases hhc : hasCol (lrows L) c = true
    · rw [if_pos hhc]
      exact mapColPureL_fix (fun p hp v hv => to_numeric_fix (hmonT p hp c hc v hv))
    · rw [if_neg hhc]
  unfold tratar_tipos_e_colunas
  rw [hvs]
  simp only [Bind.bind, Except.bind, hdup, Bool.false_eq_true, if_false]
  rw [h1]
  simp only [Bind.bind, Except.bind]
  rw [h2]
  simp only [Bind.bind, Except.bind]
  rw [h3]
  simp only [Bind.bind, Except.bind]
  rw [h4]
  by_cases hhc : hasCol (lrows L) "acumulou" = true
  · rw [if_pos hhc, mapColEL_fix hhc (fun p hp v hv => astype_boolean_fix (hacuT p hp v hv))]
  · rw [if_neg hhc]

theorem normalizar_fix {L : LFrame}
    (hlistT : ∀ p ∈ L, ∀ c ∈ colunas_listas, ∀ v, rlookup c p.2 = some v →
      isListOrNullV v = true) :
    aplicar_normalizacao_listas L = L := by
  apply foldl_fixpoint
  intro c hc
  by_cases hhc : hasCol (lrows L) c = true
  · rw [if_pos hhc]
    exact mapColPureL_fix (fun p hp v hv => normalizar_lista_fix (hlistT p hp c hc v hv))
  · rw [if_neg hhc]

/-- C7 (amended): re-running the cleaning stage on a batch it already
produced changes nothing, provided the produced batch is non-empty and
well-separated the way pandas batches of a single lottery are: its
`concurso` values are pairwise distinct with missing values counting
as equal (the counterexample shows produced batches can violate this —
deduplication runs before the coercion that produces null draw
numbers), its lottery's drop-set columns are absent from every row,
`concurso` is present and integer-or-missing, the two date columns are
keyed on the first row and hold dates-or-missing, the monetary columns
hold numerics-or-missing, `acumulou` booleans-or-missing, and the four
list columns lists-or-missing. -/
theorem c7_idempotent_on_output (B C : DataFrame)
    (h : data_cleaning_etapa1 B = Except.ok C) (hne : C ≠ [])
    (hdup : anyDupKey (C.map concursoKey) = false)
    (hdropped : ∀ r ∈ C, ∀ c ∈ dropSetFor
      (pyLower (pyStr ((C.head?.bind (rlookup "loteria")).getD Value.null))),
      rlookup c r = none)
    (hconcP : ∀ r ∈ C, (rlookup "concurso" r).isSome = true)
    (hconcT : ∀ r ∈ C, ∀ v, rlookup "concurso" r = some v → isIntOrNullV v = true)
    (hdataH : hasCol C "data" = true)
    (hdataT : ∀ r ∈ C, ∀ v, rlookup "data" r = some v → isDateOrNullV v = true)
    (hproxH : hasCol C "proximoConcurso" = true)
    (hproxT : ∀ r ∈ C, ∀ v, rlookup "proximoConcurso" r = some v → isDateOrNullV v = true)
    (hmonT : ∀ r ∈ C, ∀ c ∈ cols_monetarias, ∀ v, rlookup c r = some v → isNumOrNullV v = true)
    (hacuT : ∀ r ∈ C, ∀ v, rlookup "acumulou" r = some v → isBoolOrNullV v = true)
    (hlistT : ∀ r ∈ C, ∀ c ∈ colunas_listas, ∀ v, rlookup c r = some v →
      isListOrNullV v = true) :
    data_cleaning_etapa1 C = Except.ok C := by
  obtain ⟨d1, L2, _, _, hval⟩ := clean_split h
  obtain ⟨expected, hfacts⟩ := validar_facts hval
  cases hc : C with
  | nil => exact absurd hc hne
  | cons rh rest =>
    subst hc
    have hrhmem : rh ∈ rh :: rest := List.mem_cons_self rh rest
    obtain ⟨hlen_rh, hrange_rh⟩ := hfacts rh hrhmem
    cases hlot : rlookup "loteria" rh with
    | none => rw [rangePredE, hlot] at hrange_rh; cases hrange_rh
    | some lot =>
      have hd_drop : drop_colunas_por_loteria (rh :: rest) = Except.ok (rh :: rest) := by
        apply drop_fix rfl hlot
        intro r hr c hcmem
        apply hdropped r hr
        simpa [List.head?, hlot] using hcmem
      have hsnd : ∀ p ∈ withIndex (rh :: rest), p.2 ∈ rh :: rest :=
        fun p hp => mem_indexFrom_snd hp
      have hLrows : lrows (withIndex (rh :: rest)) = rh :: rest := lrows_withIndex _
      have hd_trat : tratar_tipos_e_colunas (withIndex (rh :: rest)) =
          Except.ok (withIndex (rh :: rest)) := by
        apply tratar_fix
        · simp [withIndex, indexFrom]
        · rw [hLrows]; exact hdup
        · exact fun p hp => hconcP p.2 (hsnd p hp)
        · exact fun p hp v hv => hconcT p.2 (hsnd p hp) v hv
        · rw [hLrows]; exact hdataH
        · exact fun p hp v hv => hdataT p.2 (hsnd p hp) v hv
        · rw [hLrows]; exact hproxH
        · exact fun p hp v hv => hproxT p.2 (hsnd p hp) v hv
        · exact fun p hp c hcm v hv => hmonT p.2 (hsnd p hp) c hcm v hv
        · exact fun p hp v hv => hacuT p.2 (hsnd p hp) v hv
      have hd_norm : aplicar_normalizacao_listas (withIndex (rh :: rest)) =
          withIndex (rh :: rest) :=
        normalizar_fix (fun p hp c hcm v hv => hlistT p.2 (hsnd p hp) c hcm v hv)
      have hd_val : validar_dezenas (withIndex (rh :: rest)) = Except.ok (rh :: rest) := by
        cases hdz : rlookup "dezenas" rh with
        | none => rw [lenPred, hdz] at hlen_rh; cases hlen_rh
        | some v =>
          cases v with
          | list ys =>
            rw [lenPred, hdz] at hlen_rh
            have hylen : ys.toList.length = expected := of_decide_eq_true hlen_rh
            apply validar_fix rfl hdz
            intro r hr
            rw [hylen]
            exact hfacts r hr
          | null => rw [lenPred, hdz] at hlen_rh; cases hlen_rh
          | bool b => rw [lenPred, hdz] at hlen_rh; cases hlen_rh
          | int n => rw [lenPred, hdz] at hlen_rh; cases hlen_rh
          | num q => rw [lenPred, hdz] at hlen_rh; cases hlen_rh
          | str s => rw [lenPred, hdz] at hlen_rh; cases hlen_rh
          | date d => rw [lenPred, hdz] at hlen_rh; cases hlen_rh
          | dict kvs => rw [lenPred, hdz] at hlen_rh; cases hlen_rh
      unfold data_cleaning_etapa1
      rw [hd_drop]
      simp only [Bind.bind, Except.bind]
      rw [hd_trat]
      simp only [Except.bind]
      rw [hd_norm]
      exact hd_val

/-- C7 witness raw batch: one valid megasena row with string-typed
`concurso` and `data`. -/
def c7W_raw : DataFrame :=
  [[("loteria", Value.str "megasena"), ("concurso", Value.str "7"),
    ("data", Value.str "01/01/2020"), ("proximoConcurso", Value.null),
    ("dezenas", vlist [Value.int 1, Value.int 2, Value.int 3, Value.int 4,
      Value.int 5, Value.int 6])]]

/-- The batch cleaning produces from `c7W_raw`. -/
def c7W_cleaned : DataFrame :=
  [[("loteria", Value.str "megasena"), ("concurso", Value.int 7),
    ("data", Value.date ⟨2020, 1, 1⟩), ("proximoConcurso", Value.null),
    ("dezenas", vlist [Value.int 1, Value.int 2, Value.int 3, Value.int 4,
      Value.int 5, Value.int 6])]]

/-- C7 witness: the amended theorem applied at the concrete produced
batch — cleaning it again returns it unchanged. -/
theorem c7_witness : data_cleaning_etapa1 c7W_cleaned = Except.ok c7W_cleaned :=
  c7_idempotent_on_output c7W_raw c7W_cleaned (by decide) (by decide) (by decide) (by decide)
    (by decide) (by decide) (by decide) (by decide) (by decide) (by decide) (by decide)
    (by decide) (by decide)
